import Mathlib

/-!
Shallow embedding of the helpdesk backend (Go) for specification checking.

Conventions of the embedding:
* Go `int` is modelled as the unbounded integer type `Int`; machine overflow
  is outside the scope of this development (no code path under scrutiny
  relies on wrap-around).
* Go `error` values crossing the layers are modelled by `GoError`:
  either a typed `*AppError`, the sentinel `sql.ErrNoRows`, or a raw
  error carrying only its message string (`fmt.Errorf`, driver errors).
* Fallible Go functions returning `(T, error)` become `Except GoError T`;
  a Go nil-able pointer result `*T` becomes `Option T`.
* Go maps with string keys are modelled as association lists in insertion
  order; `m[k]` is `List.lookup`.
* Database tables are explicit lists of rows; each repository method is
  translated from its SQL statement.  `time.Time` values are modelled as a
  calendar date plus an abstract time-of-day ordinal, which is all the SQL
  in the repository observes (equality of `DATE(created_at)` and the
  `ORDER BY created_at` ordering).
* Character case folding (`LOWER`, `ILIKE`) is modelled on ASCII letters.
-/

deriving instance DecidableEq for Except

namespace Helpdesk

/-! ## internal/utils/errors (errors.go) -/

def CODE_NOT_FOUND : String := "NOT_FOUND"
def CODE_ALREADY_EXISTS : String := "ALREADY_EXISTS"
def CODE_VALIDATION_ERROR : String := "VALIDATION_ERROR"
def CODE_INTERNAL_ERROR : String := "INTERNAL_SERVER_ERROR"
def CODE_BAD_REQUEST : String := "BAD_REQUEST"

/-- Base sentinel errors of the errors package (`ErrNotFound`, ...). -/
inductive BaseErr where
  | errNotFound
  | errAlreadyExists
  | errValidation
  | errInternal
  | errBadRequest
deriving DecidableEq, Repr

/-- Message text of each sentinel (`errors.New(...)` argument). -/
def BaseErr.text : BaseErr → String
  | .errNotFound => "resource not found"
  | .errAlreadyExists => "resource already exists"
  | .errValidation => "validation error"
  | .errInternal => "internal server error"
  | .errBadRequest => "bad request"

/-- The `AppError` struct.  `Details` is a nil-able map from field names to
messages (its values are strings in every use in the repository). -/
structure AppError where
  err : BaseErr
  code : String
  message : String
  statusCode : Int
  details : Option (List (String × String)) := none
deriving DecidableEq, Repr

/-- Method `AppError.Error()`. -/
def AppError.errorText (e : AppError) : String :=
  if e.message ≠ "" then e.message else e.err.text

/-- Method `AppError.WithDetails`. -/
def AppError.withDetails (e : AppError) (details : List (String × String)) : AppError :=
  { e with details := some details }

/-- Constructor `errors.NotFound`. -/
def Errors.NotFound (resource : String) : AppError :=
  { err := .errNotFound, code := CODE_NOT_FOUND,
    message := resource ++ " not found", statusCode := 404 }

/-- Constructor `errors.AlreadyExists`. -/
def Errors.AlreadyExists (resource : String) : AppError :=
  { err := .errAlreadyExists, code := CODE_ALREADY_EXISTS,
    message := resource ++ " already exists", statusCode := 409 }

/-- Constructor `errors.Validation`. -/
def Errors.Validation (message : String) : AppError :=
  { err := .errValidation, code := CODE_VALIDATION_ERROR,
    message := message, statusCode := 400 }

/-- Constructor `errors.Internal`. -/
def Errors.Internal (message : String) : AppError :=
  { err := .errInternal, code := CODE_INTERNAL_ERROR,
    message := message, statusCode := 500 }

/-- Constructor `errors.BadRequest`. -/
def Errors.BadRequest (message : String) : AppError :=
  { err := .errBadRequest, code := CODE_BAD_REQUEST,
    message := message, statusCode := 400 }

/-- A Go `error` value as it flows between repository, service and handler:
a typed `*AppError`, the sentinel `sql.ErrNoRows`, or an untyped error
carrying only its message. -/
inductive GoError where
  | appErr (e : AppError)
  | sqlNoRows
  | raw (msg : String)
deriving DecidableEq, Repr

/-- Result of calling `.Error()` on the modelled Go error. -/
def GoError.text : GoError → String
  | .appErr e => e.errorText
  | .sqlNoRows => "sql: no rows in result set"
  | .raw msg => msg

/-! ## Go string helpers used by the services -/

/-- Whitespace recognised by `strings.TrimSpace` (ASCII whitespace plus
NEL and NBSP; other Unicode space classes are not modelled, no string in
the claims contains them). -/
def goIsSpace (c : Char) : Bool :=
  c == ' ' || c == '\t' || c == '\n' || c == '\r' ||
  c == Char.ofNat 11 || c == Char.ofNat 12 ||
  c == Char.ofNat 0x85 || c == Char.ofNat 0xA0

/-- Function `strings.TrimSpace`. -/
def goTrimSpace (s : String) : String :=
  ⟨((s.data.dropWhile goIsSpace).reverse.dropWhile goIsSpace).reverse⟩

/-- ASCII lower-casing, modelling SQL `LOWER(...)`. -/
def sqlLower (s : String) : String :=
  ⟨s.data.map Char.toLower⟩

/-- Function `strings.Contains s sub`. -/
def goContains (s sub : String) : Bool :=
  decide (sub.data <:+: s.data)

/-! ## internal/utils/response (response.go, current version) -/

structure PaginationResponse where
  page : Int
  limit : Int
  totalItems : Int
  totalPages : Int
deriving DecidableEq, Repr

/-- Generic `ListResponse[T]`.  The Go `Items` slice is modelled with its
nil-ness erased: by the time a service builds a `ListResponse` the slice is
always non-nil (see the repository lemmas). -/
structure ListResponse (T : Type) where
  items : List T
  pagination : PaginationResponse
deriving DecidableEq, Repr

def DefaultPage : Int := 1
def DefaultLimit : Int := 10
def MaxLimit : Int := 100

structure PaginationQuery where
  page : Int
  limit : Int
deriving DecidableEq, Repr

/-- Method `PaginationQuery.NormalizePagination`, returning
`(page, limit, offset)`. -/
def PaginationQuery.normalizePagination (p : PaginationQuery) : Int × Int × Int :=
  let page0 := p.page
  let page1 := if page0 = 0 then DefaultPage else page0
  let page := if page1 < 1 then DefaultPage else page1
  let limit0 := p.limit
  let limit1 := if limit0 = 0 then DefaultLimit else limit0
  let limit2 := if limit1 < 1 then DefaultLimit else limit1
  let limit := if limit2 > MaxLimit then MaxLimit else limit2
  (page, limit, (page - 1) * limit)

/-- Function `response.CalculateTotalPages`.  Go `/` on int is truncated
division, `Int.tdiv`. -/
def calculateTotalPages (totalItems limit : Int) : Int :=
  if totalItems = 0 then 0 else (totalItems + limit - 1).tdiv limit

/-- Calendar date (the result of parsing `YYYY-MM-DD`). -/
structure Date where
  year : Int
  month : Int
  day : Int
deriving DecidableEq, Repr

/-- Go leap-year rule (`time` package). -/
def isLeapYear (y : Int) : Bool :=
  y % 4 == 0 && (y % 100 != 0 || y % 400 == 0)

/-- Days in a month, as validated by Go `time.Parse`. -/
def daysIn (m y : Int) : Int :=
  if m == 2 then (if isLeapYear y then 29 else 28)
  else if m == 4 || m == 6 || m == 9 || m == 11 then 30
  else 31

/-- Decimal value of a digit list. -/
def digitsVal (l : List Char) : Int :=
  l.foldl (fun a c => a * 10 + ((c.toNat : Int) - 48)) 0

/-- Library call `time.Parse("2006-01-02", s)`: exactly four digits, dash,
two digits, dash, two digits, with month and day range checks. -/
def goTimeParseDate (s : String) : Option Date :=
  match s.data with
  | [y1, y2, y3, y4, '-', m1, m2, '-', d1, d2] =>
    if ([y1, y2, y3, y4, m1, m2, d1, d2].all Char.isDigit) then
      let y := digitsVal [y1, y2, y3, y4]
      let m := digitsVal [m1, m2]
      let d := digitsVal [d1, d2]
      if 1 ≤ m ∧ m ≤ 12 ∧ 1 ≤ d ∧ d ≤ daysIn m y then some ⟨y, m, d⟩ else none
    else none
  | _ => none

/-- Function `response.ParseDate`. -/
def parseDate (dateStr : String) : Except AppError (Option Date) :=
  if goTrimSpace dateStr = "" then .ok none
  else
    match goTimeParseDate (goTrimSpace dateStr) with
    | some parsed => .ok (some parsed)
    | none => .error (Errors.BadRequest "Date must use YYYY-MM-DD format")

structure ErrorInfo where
  code : String
  message : String
  details : Option (List (String × String))
deriving DecidableEq, Repr

/-- The wire `Response` struct (the `Data` payload is irrelevant to the
claims and omitted). -/
structure ResponseBody where
  success : Bool
  message : String := ""
  error : Option ErrorInfo := none
deriving DecidableEq, Repr

/-- Function `response.Error`: the HTTP status written and the JSON body. -/
def Response.writeError (err : GoError) : Int × ResponseBody :=
  let appErr :=
    match err with
    | .appErr e => e
    | e => Errors.Internal e.text
  (appErr.statusCode,
   { success := false,
     error := some ⟨appErr.code, appErr.message, appErr.details⟩ })

/-! ## internal/utils/validator (validator.go) -/

/-- The `Validator.Errors` map, in insertion order. -/
abbrev Validator := List (String × String)

/-- Constructor `validator.New()`. -/
def Validator.new : Validator := []

/-- Method `Validator.Valid()`. -/
def Validator.valid (v : Validator) : Bool := v.isEmpty

/-- Method `Validator.AddError`: keeps the existing entry if the field is
already present. -/
def Validator.addError (v : Validator) (field message : String) : Validator :=
  if (v.lookup field).isSome then v else v ++ [(field, message)]

/-- Method `Validator.Check`. -/
def Validator.check (v : Validator) (ok : Bool) (field message : String) : Validator :=
  if ok then v else v.addError field message

/-- Method `Validator.ToAppError`. -/
def Validator.toAppError (v : Validator) : Option AppError :=
  if v.valid then none
  else some ((Errors.Validation "Validation failed").withDetails v)

/-- Function `validator.Required`. -/
def validatorRequired (value : String) : Bool :=
  goTrimSpace value ≠ ""

/-- Function `validator.MinLength` (`utf8.RuneCountInString` is the number
of characters). -/
def validatorMinLength (value : String) (min : Int) : Bool :=
  decide (min ≤ (value.length : Int))

/-- Function `validator.MaxLength`. -/
def validatorMaxLength (value : String) (max : Int) : Bool :=
  decide ((value.length : Int) ≤ max)

/-- Character class `[a-zA-Z0-9._%+-]` of the email pattern. -/
def emailLocalChar (c : Char) : Bool :=
  c.isAlpha || c.isDigit || c == '.' || c == '_' || c == '%' || c == '+' || c == '-'

/-- Character class `[a-zA-Z0-9.-]` of the email pattern. -/
def emailDomainChar (c : Char) : Bool :=
  c.isAlpha || c.isDigit || c == '.' || c == '-'

/-- Splitting a list on a separator predicate (`strings.Split` on the
character list). -/
def listSplit {α : Type} (p : α → Bool) : List α → List (List α)
  | [] => [[]]
  | c :: cs =>
    let r := listSplit p cs
    if p c then [] :: r
    else
      match r with
      | [] => [[c]]
      | h :: t => (c :: h) :: t

/-- Function `validator.ValidateEmail`, the anchored pattern
local+ at-sign domain+ dot alpha-run of length at least two.  A full match
forces the alpha run to be the maximal alphabetic suffix and the dot before
it to be the last dot. -/
def validatorValidateEmail (value : String) : Bool :=
  match listSplit (fun c => c == '@') value.data with
  | [lc, rc] =>
    let tld := rc.reverse.takeWhile Char.isAlpha
    let rest := rc.reverse.dropWhile Char.isAlpha
    decide (lc ≠ []) && lc.all emailLocalChar &&
    decide (2 ≤ tld.length) &&
    (match rest with
     | '.' :: pre => decide (pre ≠ []) && pre.all emailDomainChar
     | _ => false)
  | _ => false

/-- Function `validator.ValidateString`. -/
def validateString (v : Validator) (field value : String) (required : Bool)
    (minLen maxLen : Int) : Validator :=
  let v1 := if required then
    v.check (validatorRequired value) field (field ++ " is required") else v
  if value ≠ "" then
    let v2 := if 0 < minLen then
      v1.check (validatorMinLength value minLen) field
        (field ++ " must be at least " ++ toString minLen ++ " characters long")
      else v1
    if 0 < maxLen then
      v2.check (validatorMaxLength value maxLen) field
        (field ++ " must not be more than " ++ toString maxLen ++ " characters long")
    else v2
  else v1

/-! ## Timestamps and SQL pattern matching -/

/-- A `TIMESTAMP` column value: its calendar date (what `DATE(...)`
returns) and an abstract within-day ordinal. -/
structure Timestamp where
  date : Date
  tod : Int
deriving DecidableEq, Repr

/-- Lexicographic comparison of dates. -/
def Date.le (a b : Date) : Bool :=
  a.year < b.year || (a.year == b.year && (a.month < b.month ||
    (a.month == b.month && a.day ≤ b.day)))

/-- Lexicographic comparison of timestamps. -/
def Timestamp.le (a b : Timestamp) : Bool :=
  (a.date.le b.date && !(b.date.le a.date)) || (a.date == b.date && a.tod ≤ b.tod)

/-- Postgres `LIKE`/`ILIKE` pattern matching (case-insensitive comparison,
backslash escapes honoured).  An unescaped trailing backslash is an error
in Postgres; it is unreachable from the patterns the repository builds and
falls through to a literal comparison here. -/
def likeMatch : List Char → List Char → Bool
  | [], [] => true
  | [], _ :: _ => false
  | '%' :: ps, [] => likeMatch ps []
  | '%' :: ps, c :: cs => likeMatch ps (c :: cs) || likeMatch ('%' :: ps) cs
  | '\\' :: p :: ps, c :: cs => p.toLower == c.toLower && likeMatch ps cs
  | '_' :: _, [] => false
  | '_' :: ps, _ :: cs => likeMatch ps cs
  | _ :: _, [] => false
  | p :: ps, c :: cs => p.toLower == c.toLower && likeMatch ps cs
termination_by p s => (s.length, p.length)

/-- The repository filter `column ILIKE '%' || pat || '%'`. -/
def ilikeContains (pat : String) (s : String) : Bool :=
  likeMatch (('%' :: pat.data) ++ ['%']) s.data

/-- Insert into a sorted list (used to model SQL `ORDER BY`; the ordering
the repositories sort by is total, and `ORDER BY` promises no more than
some le-sorted permutation). -/
def insertBy {α : Type} (le : α → α → Bool) (a : α) : List α → List α
  | [] => [a]
  | b :: bs => if le a b then a :: b :: bs else b :: insertBy le a bs

/-- Insertion sort. -/
def sortBy {α : Type} (le : α → α → Bool) : List α → List α
  | [] => []
  | a :: as => insertBy le a (sortBy le as)

theorem length_insertBy {α : Type} (le : α → α → Bool) (a : α) (l : List α) :
    (insertBy le a l).length = l.length + 1 := by
  induction l with
  | nil => rfl
  | cons b bs ih =>
    unfold insertBy
    split_ifs <;> simp [ih]

theorem length_sortBy {α : Type} (le : α → α → Bool) (l : List α) :
    (sortBy le l).length = l.length := by
  induction l with
  | nil => rfl
  | cons a as ih => simp [sortBy, length_insertBy, ih]

/-! ## Category feature: models and DTOs (category/models, dto.go) -/

structure Category where
  id : Int
  name : String
  isActive : Bool
  createdAt : Timestamp
deriving DecidableEq, Repr

structure CategoryResponse where
  id : Int
  name : String
  isActive : Bool
  createdAt : Timestamp
deriving DecidableEq, Repr

structure CreateCategoryRequest where
  name : String
deriving DecidableEq, Repr

structure UpdateCategoryRequest where
  name : String
  isActive : Option Bool := none
deriving DecidableEq, Repr

/-- `GetCategoriesQuery` (the embedded `PaginationQuery` flattened). -/
structure GetCategoriesQuery where
  pagination : PaginationQuery
  name : String := ""
  isActive : Option Bool := none
  createdAt : String := ""
deriving DecidableEq, Repr

structure CategoryListFilter where
  page : Int
  limit : Int
  offset : Int
  name : String
  isActive : Option Bool
  createdAt : Option Date
deriving DecidableEq, Repr

/-- Method `CreateCategoryRequest.Validate`. -/
def CreateCategoryRequest.validate (r : CreateCategoryRequest) : Option AppError :=
  let v := validateString Validator.new "name" r.name true 2 20
  if ¬ v.valid then v.toAppError else none

/-- Method `UpdateCategoryRequest.Validate`. -/
def UpdateCategoryRequest.validate (r : UpdateCategoryRequest) : Option AppError :=
  let v := validateString Validator.new "name" r.name true 2 20
  if ¬ v.valid then v.toAppError else none

def defaultCategoryPage : Int := 1
def defaultCategoryLimit : Int := 10
def maxCategoryLimit : Int := 100

/-- Method `GetCategoriesQuery.Normalize`, earlier inline version
(category/dto.go, first revision): rejects negative page and limit with
`BadRequest` and parses the date inline. -/
def GetCategoriesQuery.normalizeInline (q : GetCategoriesQuery) :
    Except AppError CategoryListFilter :=
  let page := if q.pagination.page = 0 then defaultCategoryPage else q.pagination.page
  if page < 1 then .error (Errors.BadRequest "page must be greater than 0")
  else
    let limit1 := if q.pagination.limit = 0 then defaultCategoryLimit else q.pagination.limit
    if limit1 < 1 then .error (Errors.BadRequest "limit must be greater than 0")
    else
      let limit := if limit1 > maxCategoryLimit then maxCategoryLimit else limit1
      let mk : Option Date → CategoryListFilter := fun createdAt =>
        ⟨page, limit, (page - 1) * limit, goTrimSpace q.name, q.isActive, createdAt⟩
      if goTrimSpace q.createdAt ≠ "" then
        match goTimeParseDate (goTrimSpace q.createdAt) with
        | none => .error (Errors.BadRequest "createdAt must use YYYY-MM-DD format")
        | some parsed => .ok (mk (some parsed))
      else .ok (mk none)

/-- Method `GetCategoriesQuery.Normalize`, current version (category/dto.go,
second revision): delegates to `NormalizePagination` and `response.ParseDate`. -/
def GetCategoriesQuery.normalize (q : GetCategoriesQuery) :
    Except AppError CategoryListFilter :=
  let (page, limit, offset) := q.pagination.normalizePagination
  match parseDate q.createdAt with
  | .error e => .error e
  | .ok createdAt =>
    .ok ⟨page, limit, offset, goTrimSpace q.name, q.isActive, createdAt⟩

/-- Function `ToCategoryResponse`. -/
def toCategoryResponse (c : Category) : CategoryResponse :=
  ⟨c.id, c.name, c.isActive, c.createdAt⟩

/-- Function `ToCategoryResponses` (via `response.MapResponses`). -/
def toCategoryResponses (categories : List Category) : List CategoryResponse :=
  categories.map toCategoryResponse

/-! ## User feature: models and DTOs (user/models, dto.go) -/

structure UserRow where
  id : Int
  name : String
  email : String
  password : String
  avatarURL : Option String
  phone : Option String
  role : String
  divisionId : Int
  isActive : Bool
  createdAt : Timestamp
deriving DecidableEq, Repr

structure UserWithDivision where
  id : Int
  name : String
  email : String
  password : String
  avatarURL : Option String
  phone : Option String
  role : String
  divisionId : Int
  divisionName : String
  isActive : Bool
  createdAt : Timestamp
deriving DecidableEq, Repr

structure DivisionRow where
  id : Int
  name : String
  isActive : Bool
  createdAt : Timestamp
deriving DecidableEq, Repr

/-- The `ValidRoles` map. -/
def ValidRoles (role : String) : Bool :=
  role == "ADMIN" || role == "IT" || role == "STAFF"

structure CreateUserRequest where
  name : String
  email : String
  password : String
  role : String
  divisionId : Int
deriving DecidableEq, Repr

structure UpdateUserRequest where
  name : String
  phone : Option String := none
  role : String
  divisionId : Int
  isActive : Option Bool := none
deriving DecidableEq, Repr

/-- Embedded `Division` payload of `UserResponse`. -/
structure DivisionRef where
  id : Int
  name : String
deriving DecidableEq, Repr

structure UserResponse where
  id : Int
  name : String
  email : String
  avatarURL : Option String
  phone : Option String
  role : String
  division : DivisionRef
  isActive : Bool
  createdAt : Timestamp
deriving DecidableEq, Repr

structure GetUsersQuery where
  pagination : PaginationQuery
  name : String := ""
  role : String := ""
  divisionId : Int := 0
  isActive : Option Bool := none
deriving DecidableEq, Repr

structure UserListFilter where
  page : Int
  limit : Int
  offset : Int
  name : String
  role : String
  divisionId : Int
  isActive : Option Bool
deriving DecidableEq, Repr

/-- Method `CreateUserRequest.Validate`. -/
def CreateUserRequest.validate (r : CreateUserRequest) : Option AppError :=
  let v := validateString Validator.new "name" r.name true 2 50
  let v := validateString v "email" r.email true 5 255
  let v := if r.email ≠ "" ∧ ¬ validatorValidateEmail r.email then
    v.addError "email" "Must be a valid email address" else v
  let v := validateString v "password" r.password true 6 255
  let role := goTrimSpace r.role
  let v := if role = "" then v.addError "role" "Required"
    else if ¬ ValidRoles role then
      v.addError "role" "Must be one of: ADMIN, IT, STAFF"
    else v
  let v := if r.divisionId ≤ 0 then
    v.addError "divisionId" "Required and must be greater than 0" else v
  if ¬ v.valid then v.toAppError else none

/-- Method `UpdateUserRequest.Validate`. -/
def UpdateUserRequest.validate (r : UpdateUserRequest) : Option AppError :=
  let v := validateString Validator.new "name" r.name true 2 50
  let role := goTrimSpace r.role
  let v := if role = "" then v.addError "role" "Required"
    else if ¬ ValidRoles role then
      v.addError "role" "Must be one of: ADMIN, IT, STAFF"
    else v
  let v := if r.divisionId ≤ 0 then
    v.addError "divisionId" "Required and must be greater than 0" else v
  if ¬ v.valid then v.toAppError else none

/-- Method `GetUsersQuery.Normalize` (never fails). -/
def GetUsersQuery.normalize (q : GetUsersQuery) : Except AppError UserListFilter :=
  let (page, limit, offset) := q.pagination.normalizePagination
  .ok ⟨page, limit, offset, goTrimSpace q.name, goTrimSpace q.role,
       q.divisionId, q.isActive⟩

/-- Function `buildFullURL`. -/
def buildFullURL (relativePath : Option String) (baseURL : String) : Option String :=
  match relativePath with
  | none => none
  | some p => if p = "" then none else some (baseURL ++ p)

/-- Function `ToUserResponse`. -/
def toUserResponse (u : UserWithDivision) (baseURL : String) : UserResponse :=
  { id := u.id, name := u.name, email := u.email,
    avatarURL := buildFullURL u.avatarURL baseURL,
    phone := u.phone, role := u.role,
    division := ⟨u.divisionId, u.divisionName⟩,
    isActive := u.isActive, createdAt := u.createdAt }

/-- Function `ToUserResponses`. -/
def toUserResponses (users : List UserWithDivision) (baseURL : String) :
    List UserResponse :=
  users.map (fun u => toUserResponse u baseURL)

/-! ## Category repository (category/repository.go, filtered revision)

The database is a list of rows plus the sequence value and the clock used
for `DEFAULT CURRENT_TIMESTAMP`. -/

structure CategoryDB where
  rows : List Category
  nextId : Int
  now : Timestamp
deriving DecidableEq, Repr

/-- The WHERE clause built by `buildCategoryFilterWhereClause`, as a row
predicate: `name ILIKE '%'||f.Name||'%'`, `is_active = f.IsActive`,
`DATE(created_at) = f.CreatedAt` (each only when the field is set). -/
def categoryMatches (filter : CategoryListFilter) (c : Category) : Bool :=
  (filter.name == "" || ilikeContains filter.name c.name) &&
  (match filter.isActive with | none => true | some b => c.isActive == b) &&
  (match filter.createdAt with | none => true | some d => c.createdAt.date == d)

/-- `ORDER BY created_at DESC, id DESC`. -/
def sortCategories (l : List Category) : List Category :=
  sortBy (fun a b =>
    (b.createdAt.le a.createdAt && !(a.createdAt.le b.createdAt)) ||
    (a.createdAt == b.createdAt && b.id ≤ a.id)) l

/-- Repository method `GetAll`: a COUNT over the filtered table, then the
page `LIMIT $limit OFFSET $offset` (Postgres rejects negative values).
The `Option` on the slice models Go slice nil-ness: the scan leaves the
slice nil when no row is returned, and the method replaces nil by the
empty slice before returning. -/
def categoryRepoGetAll (filter : CategoryListFilter) (db : CategoryDB) :
    Except GoError (Option (List Category) × Int) × CategoryDB :=
  let matched := db.rows.filter (categoryMatches filter)
  let totalItems : Int := matched.length
  if filter.limit < 0 ∨ filter.offset < 0 then
    (.error (.raw "failed to get categories: negative limit or offset"), db)
  else
    let pageRows := ((sortCategories matched).drop filter.offset.toNat).take filter.limit.toNat
    let scanned : Option (List Category) := if pageRows.isEmpty then none else some pageRows
    let categories := match scanned with | none => some [] | some l => some l
    (.ok (categories, totalItems), db)

/-- Repository method `GetByID` (`sql.ErrNoRows` becomes `(nil, nil)`). -/
def categoryRepoGetByID (id : Int) (db : CategoryDB) :
    Except GoError (Option Category) × CategoryDB :=
  (.ok (db.rows.find? (fun c => c.id == id)), db)

/-- Repository method `GetByName`: `WHERE LOWER(name) = LOWER($1)`. -/
def categoryRepoGetByName (name : String) (db : CategoryDB) :
    Except GoError (Option Category) × CategoryDB :=
  (.ok (db.rows.find? (fun c => sqlLower c.name == sqlLower name)), db)

/-- Repository method `Exists`. -/
def categoryRepoExists (id : Int) (db : CategoryDB) :
    Except GoError Bool × CategoryDB :=
  (.ok (db.rows.any (fun c => c.id == id)), db)

/-- Repository method `Create`: INSERT returning the new row; the unique
index on `LOWER(name)` raises 23505, translated to the
"... already exists" message. -/
def categoryRepoCreate (name : String) (db : CategoryDB) :
    Except GoError (Option Category) × CategoryDB :=
  if db.rows.any (fun c => sqlLower c.name == sqlLower name) then
    (.error (.raw ("category with name \x27" ++ name ++ "\x27 already exists")), db)
  else
    let c : Category := ⟨db.nextId, name, true, db.now⟩
    (.ok (some c), { db with rows := db.rows ++ [c], nextId := db.nextId + 1 })

/-- Repository method `Update` (the two-argument revision the service
calls): UPDATE RETURNING; no row updated gives `(nil, nil)`; a name clash
with another row raises 23505. -/
def categoryRepoUpdate (id : Int) (name : String) (db : CategoryDB) :
    Except GoError (Option Category) × CategoryDB :=
  match db.rows.find? (fun c => c.id == id) with
  | none => (.ok none, db)
  | some c =>
    if db.rows.any (fun c2 => c2.id ≠ id && sqlLower c2.name == sqlLower name) then
      (.error (.raw ("category with name \x27" ++ name ++ "\x27 already exists")), db)
    else
      let c2 := { c with name := name }
      (.ok (some c2),
       { db with rows := db.rows.map (fun r => if r.id == id then c2 else r) })

/-- Repository method `Delete`: DELETE, then `sql.ErrNoRows` when no row
was affected. -/
def categoryRepoDelete (id : Int) (db : CategoryDB) :
    Except GoError Unit × CategoryDB :=
  if db.rows.any (fun c => c.id == id) then
    (.ok (), { db with rows := db.rows.filter (fun c => ¬ c.id = id) })
  else (.error .sqlNoRows, db)

/-- The category `Repository` interface over an arbitrary store type. -/
structure CategoryRepo (σ : Type) where
  getAll : CategoryListFilter → σ → Except GoError (Option (List Category) × Int) × σ
  getByID : Int → σ → Except GoError (Option Category) × σ
  getByName : String → σ → Except GoError (Option Category) × σ
  existsId : Int → σ → Except GoError Bool × σ
  create : String → σ → Except GoError (Option Category) × σ
  update : Int → String → σ → Except GoError (Option Category) × σ
  deleteId : Int → σ → Except GoError Unit × σ

/-- The SQL-backed implementation. -/
def categoryRepoImpl : CategoryRepo CategoryDB :=
  ⟨categoryRepoGetAll, categoryRepoGetByID, categoryRepoGetByName,
   categoryRepoExists, categoryRepoCreate, categoryRepoUpdate, categoryRepoDelete⟩

/-! ## User repository (user/repository.go) -/

structure UserDB where
  users : List UserRow
  divisions : List DivisionRow
  nextId : Int
  now : Timestamp
deriving DecidableEq, Repr

/-- The WHERE clause built by `buildUserFilterWhereClause` (all conditions
are on `users` columns). -/
def userMatches (filter : UserListFilter) (u : UserRow) : Bool :=
  (filter.name == "" || ilikeContains filter.name u.name) &&
  (filter.role == "" || u.role == filter.role) &&
  (decide (filter.divisionId ≤ 0) || u.divisionId == filter.divisionId) &&
  (match filter.isActive with | none => true | some b => u.isActive == b)

/-- `INNER JOIN divisions d ON u.division_id = d.id`. -/
def joinDivision (divisions : List DivisionRow) (u : UserRow) : Option UserWithDivision :=
  (divisions.find? (fun d => d.id == u.divisionId)).map (fun d =>
    { id := u.id, name := u.name, email := u.email, password := u.password,
      avatarURL := u.avatarURL, phone := u.phone, role := u.role,
      divisionId := u.divisionId, divisionName := d.name,
      isActive := u.isActive, createdAt := u.createdAt })

/-- `ORDER BY u.created_at DESC, u.id DESC`. -/
def sortUsers (l : List UserWithDivision) : List UserWithDivision :=
  sortBy (fun a b =>
    (b.createdAt.le a.createdAt && !(a.createdAt.le b.createdAt)) ||
    (a.createdAt == b.createdAt && b.id ≤ a.id)) l

/-- Repository method `GetAll`: the COUNT query has no join, the page query
joins divisions. -/
def userRepoGetAll (filter : UserListFilter) (db : UserDB) :
    Except GoError (Option (List UserWithDivision) × Int) × UserDB :=
  let matched := db.users.filter (userMatches filter)
  let totalItems : Int := matched.length
  if filter.limit < 0 ∨ filter.offset < 0 then
    (.error (.raw "failed to get users: negative limit or offset"), db)
  else
    let joined := matched.filterMap (joinDivision db.divisions)
    let pageRows := ((sortUsers joined).drop filter.offset.toNat).take filter.limit.toNat
    let scanned : Option (List UserWithDivision) :=
      if pageRows.isEmpty then none else some pageRows
    let users := match scanned with | none => some [] | some l => some l
    (.ok (users, totalItems), db)

/-- Repository method `GetByID` (join with divisions). -/
def userRepoGetByID (id : Int) (db : UserDB) :
    Except GoError (Option UserWithDivision) × UserDB :=
  (.ok ((db.users.find? (fun u => u.id == id)).bind (joinDivision db.divisions)), db)

/-- Repository method `GetByEmail`: `WHERE LOWER(email) = LOWER($1)`. -/
def userRepoGetByEmail (email : String) (db : UserDB) :
    Except GoError (Option UserRow) × UserDB :=
  (.ok (db.users.find? (fun u => sqlLower u.email == sqlLower email)), db)

/-- Repository method `Exists`. -/
def userRepoExists (id : Int) (db : UserDB) :
    Except GoError Bool × UserDB :=
  (.ok (db.users.any (fun u => u.id == id)), db)

/-- Repository method `Create`: INSERT (unique index on `LOWER(email)`
raises 23505), then `GetByID` on the new id. -/
def userRepoCreate (name email passwordHash avatarURL phone role : String)
    (divisionId : Int) (db : UserDB) :
    Except GoError (Option UserWithDivision) × UserDB :=
  if db.users.any (fun u => sqlLower u.email == sqlLower email) then
    (.error (.raw ("user with email \x27" ++ email ++ "\x27 already exists")), db)
  else
    let u : UserRow := ⟨db.nextId, name, email, passwordHash, some avatarURL,
      some phone, role, divisionId, true, db.now⟩
    let db2 : UserDB := { db with users := db.users ++ [u], nextId := db.nextId + 1 }
    userRepoGetByID db.nextId db2

/-- Repository method `Update`: UPDATE, `(nil, nil)` when no row affected,
then `GetByID`. -/
def userRepoUpdate (id : Int) (name phone role : String) (divisionId : Int)
    (isActive : Bool) (db : UserDB) :
    Except GoError (Option UserWithDivision) × UserDB :=
  if db.users.any (fun u => u.id == id) then
    let db2 : UserDB := { db with users := db.users.map (fun u =>
      if u.id == id then
        { u with name := name, phone := some phone, role := role,
                 divisionId := divisionId, isActive := isActive }
      else u) }
    userRepoGetByID id db2
  else (.ok none, db)

/-- Repository method `Delete`. -/
def userRepoDelete (id : Int) (db : UserDB) :
    Except GoError Unit × UserDB :=
  if db.users.any (fun u => u.id == id) then
    (.ok (), { db with users := db.users.filter (fun u => ¬ u.id = id) })
  else (.error .sqlNoRows, db)

/-- The user `Repository` interface over an arbitrary store type
(`GetByName` and `UpdateAvatar` are not consumed by the modelled service
methods and omitted). -/
structure UserRepo (σ : Type) where
  getAll : UserListFilter → σ → Except GoError (Option (List UserWithDivision) × Int) × σ
  getByID : Int → σ → Except GoError (Option UserWithDivision) × σ
  getByEmail : String → σ → Except GoError (Option UserRow) × σ
  existsId : Int → σ → Except GoError Bool × σ
  create : String → String → String → String → String → String → Int → σ →
    Except GoError (Option UserWithDivision) × σ
  update : Int → String → String → String → Int → Bool → σ →
    Except GoError (Option UserWithDivision) × σ
  deleteId : Int → σ → Except GoError Unit × σ

/-- The SQL-backed implementation. -/
def userRepoImpl : UserRepo UserDB :=
  ⟨userRepoGetAll, userRepoGetByID, userRepoGetByEmail, userRepoExists,
   userRepoCreate, userRepoUpdate, userRepoDelete⟩

/-! ## Division repository GetAll (division/repository.go) -/

structure DivisionListFilter where
  page : Int
  limit : Int
  offset : Int
  name : String
  isActive : Option Bool
  createdAt : Option Date
deriving DecidableEq, Repr

structure DivisionDB where
  rows : List DivisionRow
  nextId : Int
  now : Timestamp
deriving DecidableEq, Repr

/-- The WHERE clause built by `buildDivisionFilterWhereClause`. -/
def divisionMatches (filter : DivisionListFilter) (d : DivisionRow) : Bool :=
  (filter.name == "" || ilikeContains filter.name d.name) &&
  (match filter.isActive with | none => true | some b => d.isActive == b) &&
  (match filter.createdAt with | none => true | some dt => d.createdAt.date == dt)

/-- `ORDER BY created_at DESC, id DESC`. -/
def sortDivisions (l : List DivisionRow) : List DivisionRow :=
  sortBy (fun a b =>
    (b.createdAt.le a.createdAt && !(a.createdAt.le b.createdAt)) ||
    (a.createdAt == b.createdAt && b.id ≤ a.id)) l

/-- Repository method `GetAll` of the division feature (same shape as the
category one). -/
def divisionRepoGetAll (filter : DivisionListFilter) (db : DivisionDB) :
    Except GoError (Option (List DivisionRow) × Int) × DivisionDB :=
  let matched := db.rows.filter (divisionMatches filter)
  let totalItems : Int := matched.length
  if filter.limit < 0 ∨ filter.offset < 0 then
    (.error (.raw "failed to get divisions: negative limit or offset"), db)
  else
    let pageRows := ((sortDivisions matched).drop filter.offset.toNat).take filter.limit.toNat
    let scanned : Option (List DivisionRow) := if pageRows.isEmpty then none else some pageRows
    let divisions := match scanned with | none => some [] | some l => some l
    (.ok (divisions, totalItems), db)

/-! ## Category service (category/service.go)

Each method threads the store state of the repository it was built with;
a Go `nil` request is not modelled (the handlers always pass one). -/

/-- Service method `GetAll`. -/
def categoryServiceGetAll {σ : Type} (repo : CategoryRepo σ)
    (req : GetCategoriesQuery) (s : σ) :
    Except GoError (ListResponse CategoryResponse) × σ :=
  match req.normalize with
  | .error e => (.error (.appErr e), s)
  | .ok filter =>
    match repo.getAll filter s with
    | (.error _, s1) =>
      (.error (.appErr (Errors.Internal "Failed to retrieve categories")), s1)
    | (.ok (slice, totalItems), s1) =>
      (.ok { items := toCategoryResponses (slice.getD []),
             pagination := ⟨filter.page, filter.limit, totalItems,
               calculateTotalPages totalItems filter.limit⟩ }, s1)

/-- Service method `GetByID`. -/
def categoryServiceGetByID {σ : Type} (repo : CategoryRepo σ) (id : Int) (s : σ) :
    Except GoError CategoryResponse × σ :=
  if id ≤ 0 then (.error (.appErr (Errors.BadRequest "Invalid category ID")), s)
  else
    match repo.getByID id s with
    | (.error _, s1) =>
      (.error (.appErr (Errors.Internal "Failed to retrieve category")), s1)
    | (.ok none, s1) => (.error (.appErr (Errors.NotFound "Category")), s1)
    | (.ok (some c), s1) => (.ok (toCategoryResponse c), s1)

/-- Service method `Create`.  On the repository create path a `nil` row
with `nil` error would be dereferenced by the Go code (a panic); it is
modelled as an absent response. -/
def categoryServiceCreate {σ : Type} (repo : CategoryRepo σ)
    (req : CreateCategoryRequest) (s : σ) :
    Except GoError (Option CategoryResponse) × σ :=
  match req.validate with
  | some e => (.error (.appErr e), s)
  | none =>
    let name := goTrimSpace req.name
    match repo.getByName name s with
    | (.error _, s1) =>
      (.error (.appErr (Errors.Internal "Failed to create category")), s1)
    | (.ok (some _), s1) =>
      (.error (.appErr (Errors.AlreadyExists "Category")), s1)
    | (.ok none, s1) =>
      match repo.create name s1 with
      | (.error e, s2) =>
        if goContains e.text "already exists" then
          (.error (.appErr (Errors.AlreadyExists "Category")), s2)
        else (.error (.appErr (Errors.Internal "Failed to create category")), s2)
      | (.ok c, s2) => (.ok (c.map toCategoryResponse), s2)

/-- Service method `Update`. -/
def categoryServiceUpdate {σ : Type} (repo : CategoryRepo σ) (id : Int)
    (req : UpdateCategoryRequest) (s : σ) :
    Except GoError CategoryResponse × σ :=
  if id ≤ 0 then (.error (.appErr (Errors.BadRequest "Invalid category ID")), s)
  else
    match req.validate with
    | some e => (.error (.appErr e), s)
    | none =>
      match repo.existsId id s with
      | (.error _, s1) =>
        (.error (.appErr (Errors.Internal "Failed to update category")), s1)
      | (.ok false, s1) => (.error (.appErr (Errors.NotFound "Category")), s1)
      | (.ok true, s1) =>
        let name := goTrimSpace req.name
        match repo.getByName name s1 with
        | (.error _, s2) =>
          (.error (.appErr (Errors.Internal "Failed to update category")), s2)
        | (.ok existing, s2) =>
          if (existing.map (fun c => decide (c.id ≠ id))).getD false then
            (.error (.appErr (Errors.AlreadyExists "Category with this name")), s2)
          else
            match repo.update id name s2 with
            | (.error e, s3) =>
              if goContains e.text "already exists" then
                (.error (.appErr (Errors.AlreadyExists "Category")), s3)
              else (.error (.appErr (Errors.Internal "Failed to update category")), s3)
            | (.ok none, s3) => (.error (.appErr (Errors.NotFound "Category")), s3)
            | (.ok (some c), s3) => (.ok (toCategoryResponse c), s3)

/-- Service method `Delete`. -/
def categoryServiceDelete {σ : Type} (repo : CategoryRepo σ) (id : Int) (s : σ) :
    Except GoError Unit × σ :=
  if id ≤ 0 then (.error (.appErr (Errors.BadRequest "Invalid category ID")), s)
  else
    match repo.existsId id s with
    | (.error _, s1) =>
      (.error (.appErr (Errors.Internal "Failed to delete category")), s1)
    | (.ok false, s1) => (.error (.appErr (Errors.NotFound "Category")), s1)
    | (.ok true, s1) =>
      match repo.deleteId id s1 with
      | (.error e, s2) =>
        if e = .sqlNoRows then (.error (.appErr (Errors.NotFound "Category")), s2)
        else (.error (.appErr (Errors.Internal ("Failed to delete category: " ++ e.text))), s2)
      | (.ok _, s2) => (.ok (), s2)

/-! ## User service (user/service.go)

The division service is not part of src/; `ValidateForAssignment` is
passed in as a function, and the password hash is a library call, also
passed in. -/

/-- Service method `GetAll`. -/
def userServiceGetAll {σ : Type} (repo : UserRepo σ) (baseURL : String)
    (req : GetUsersQuery) (s : σ) :
    Except GoError (ListResponse UserResponse) × σ :=
  match req.normalize with
  | .error e => (.error (.appErr e), s)
  | .ok filter =>
    match repo.getAll filter s with
    | (.error _, s1) =>
      (.error (.appErr (Errors.Internal "Failed to retrieve users")), s1)
    | (.ok (slice, totalItems), s1) =>
      (.ok { items := toUserResponses (slice.getD []) baseURL,
             pagination := ⟨filter.page, filter.limit, totalItems,
               calculateTotalPages totalItems filter.limit⟩ }, s1)

/-- Service method `GetByID`. -/
def userServiceGetByID {σ : Type} (repo : UserRepo σ) (baseURL : String)
    (id : Int) (s : σ) :
    Except GoError UserResponse × σ :=
  if id ≤ 0 then (.error (.appErr (Errors.BadRequest "Invalid user ID")), s)
  else
    match repo.getByID id s with
    | (.error _, s1) =>
      (.error (.appErr (Errors.Internal "Failed to retrieve user")), s1)
    | (.ok none, s1) => (.error (.appErr (Errors.NotFound "User")), s1)
    | (.ok (some u), s1) => (.ok (toUserResponse u baseURL), s1)

/-- Service method `Create`.  `divValidate` is the division service call
`ValidateForAssignment`; `hashPw` is `bcrypt.GenerateFromPassword`.  As in
the category service, a `nil` user with `nil` error from the repository
would be dereferenced by the Go code and is modelled as an absent
response. -/
def userServiceCreate {σ : Type} (repo : UserRepo σ)
    (divValidate : Int → σ → Except AppError Unit × σ)
    (hashPw : String → Except GoError String)
    (baseURL : String) (req : CreateUserRequest) (s : σ) :
    Except GoError (Option UserResponse) × σ :=
  match req.validate with
  | some e => (.error (.appErr e), s)
  | none =>
    let name := goTrimSpace req.name
    let email := goTrimSpace req.email
    match divValidate req.divisionId s with
    | (.error e, s1) => (.error (.appErr e), s1)
    | (.ok _, s1) =>
      match repo.getByEmail email s1 with
      | (.error _, s2) =>
        (.error (.appErr (Errors.Internal "Failed to create user")), s2)
      | (.ok (some _), s2) =>
        (.error (.appErr (Errors.AlreadyExists "User with this email")), s2)
      | (.ok none, s2) =>
        match hashPw req.password with
        | .error _ =>
          (.error (.appErr (Errors.Internal "Failed to create user")), s2)
        | .ok passwordHash =>
          let role := goTrimSpace req.role
          match repo.create name email passwordHash "" "" role req.divisionId s2 with
          | (.error e, s3) =>
            if goContains e.text "already exists" then
              (.error (.appErr (Errors.AlreadyExists "User with this email")), s3)
            else (.error (.appErr (Errors.Internal "Failed to create user")), s3)
          | (.ok u, s3) => (.ok (u.map (fun x => toUserResponse x baseURL)), s3)

/-- Service method `Update`. -/
def userServiceUpdate {σ : Type} (repo : UserRepo σ)
    (divValidate : Int → σ → Except AppError Unit × σ)
    (baseURL : String) (id : Int) (req : UpdateUserRequest) (s : σ) :
    Except GoError UserResponse × σ :=
  if id ≤ 0 then (.error (.appErr (Errors.BadRequest "Invalid user ID")), s)
  else
    match req.validate with
    | some e => (.error (.appErr e), s)
    | none =>
      match repo.existsId id s with
      | (.error _, s1) =>
        (.error (.appErr (Errors.Internal "Failed to update user")), s1)
      | (.ok false, s1) => (.error (.appErr (Errors.NotFound "User")), s1)
      | (.ok true, s1) =>
        match divValidate req.divisionId s1 with
        | (.error e, s2) => (.error (.appErr e), s2)
        | (.ok _, s2) =>
          match repo.getByID id s2 with
          | (.error _, s3) =>
            (.error (.appErr (Errors.Internal "Failed to update user")), s3)
          | (.ok none, s3) => (.error (.appErr (Errors.NotFound "User")), s3)
          | (.ok (some currentUser), s3) =>
            let name := goTrimSpace req.name
            let phone := match req.phone with
              | none => ""
              | some p => goTrimSpace p
            let role := goTrimSpace req.role
            let isActive := match req.isActive with
              | none => currentUser.isActive
              | some b => b
            match repo.update id name phone role req.divisionId isActive s3 with
            | (.error _, s4) =>
              (.error (.appErr (Errors.Internal "Failed to update user")), s4)
            | (.ok none, s4) => (.error (.appErr (Errors.NotFound "User")), s4)
            | (.ok (some u), s4) => (.ok (toUserResponse u baseURL), s4)

/-- Service method `Delete` (the avatar file removal after a successful
delete only logs on failure and does not affect the result). -/
def userServiceDelete {σ : Type} (repo : UserRepo σ) (id : Int) (s : σ) :
    Except GoError Unit × σ :=
  if id ≤ 0 then (.error (.appErr (Errors.BadRequest "Invalid user ID")), s)
  else
    match repo.getByID id s with
    | (.error _, s1) =>
      (.error (.appErr (Errors.Internal "Failed to delete user")), s1)
    | (.ok none, s1) => (.error (.appErr (Errors.NotFound "User")), s1)
    | (.ok (some _), s1) =>
      match repo.deleteId id s1 with
      | (.error e, s2) =>
        if e = .sqlNoRows then (.error (.appErr (Errors.NotFound "User")), s2)
        else (.error (.appErr (Errors.Internal ("Failed to delete user: " ++ e.text))), s2)
      | (.ok _, s2) => (.ok (), s2)

/-- Modelled from the spec: the division service `ValidateForAssignment`
(the division service source file is not under src/, only its interface
and callers are).  Per the spec's three-layer shape, the service validates
the business rule that the assigned division exists and is active,
returning a taxonomy `AppError` otherwise. -/
def divisionValidateForAssignment (divisionId : Int) (db : UserDB) :
    Except AppError Unit × UserDB :=
  if db.divisions.any (fun d => d.id == divisionId && d.isActive) then (.ok (), db)
  else (.error (Errors.NotFound "Division"), db)

/-- Modelled from the spec: password hashing is a library call
(`bcrypt.GenerateFromPassword`), out of the repository's code; a stand-in
that always succeeds. -/
def bcryptHash (password : String) : Except GoError String :=
  .ok ("bcrypt$" ++ password)

/-! ## Helper lemmas about pagination normalization -/

theorem normalizePagination_page (p : PaginationQuery) :
    (p.normalizePagination).1 = if 1 ≤ p.page then p.page else DefaultPage := by
  simp only [PaginationQuery.normalizePagination, DefaultPage]
  split_ifs <;> omega

theorem normalizePagination_limit (p : PaginationQuery) :
    (p.normalizePagination).2.1 =
      if p.limit ≤ 0 then DefaultLimit
      else if MaxLimit < p.limit then MaxLimit else p.limit := by
  simp only [PaginationQuery.normalizePagination, DefaultLimit, MaxLimit]
  split_ifs <;> omega

theorem normalizePagination_offset (p : PaginationQuery) :
    (p.normalizePagination).2.2 =
      ((p.normalizePagination).1 - 1) * (p.normalizePagination).2.1 := rfl

theorem normalizePagination_page_pos (p : PaginationQuery) :
    1 ≤ (p.normalizePagination).1 := by
  rw [normalizePagination_page]
  unfold DefaultPage
  split_ifs <;> omega

theorem normalizePagination_limit_bounds (p : PaginationQuery) :
    1 ≤ (p.normalizePagination).2.1 ∧ (p.normalizePagination).2.1 ≤ 100 := by
  rw [normalizePagination_limit]
  unfold DefaultLimit MaxLimit
  split_ifs <;> omega

theorem normalizePagination_offset_nonneg (p : PaginationQuery) :
    0 ≤ (p.normalizePagination).2.2 := by
  rw [normalizePagination_offset]
  have h1 := normalizePagination_page_pos p
  have h2 := (normalizePagination_limit_bounds p).1
  have : 0 ≤ (p.normalizePagination).1 - 1 := by omega
  exact mul_nonneg this (by omega)

/-- C1: `NormalizePagination` keeps a page at least 1 and defaults it to 1
otherwise; keeps a limit in `[1, 100]`, defaults a nonpositive one to 10
and caps one above 100 at 100; the offset is `(page - 1) * limit`; and the
result always satisfies `page ≥ 1`, `1 ≤ limit ≤ 100`, `offset ≥ 0`. -/
theorem C1_normalizePagination_spec (p : PaginationQuery) :
    (1 ≤ p.page → (p.normalizePagination).1 = p.page) ∧
    (p.page ≤ 0 → (p.normalizePagination).1 = DefaultPage) ∧
    (1 ≤ p.limit ∧ p.limit ≤ 100 → (p.normalizePagination).2.1 = p.limit) ∧
    (p.limit ≤ 0 → (p.normalizePagination).2.1 = DefaultLimit) ∧
    (100 < p.limit → (p.normalizePagination).2.1 = MaxLimit) ∧
    (p.normalizePagination).2.2 =
      ((p.normalizePagination).1 - 1) * (p.normalizePagination).2.1 ∧
    1 ≤ (p.normalizePagination).1 ∧
    1 ≤ (p.normalizePagination).2.1 ∧ (p.normalizePagination).2.1 ≤ 100 ∧
    0 ≤ (p.normalizePagination).2.2 := by
  refine ⟨?_, ?_, ?_, ?_, ?_, normalizePagination_offset p,
    normalizePagination_page_pos p, (normalizePagination_limit_bounds p).1,
    (normalizePagination_limit_bounds p).2, normalizePagination_offset_nonneg p⟩
  · intro h; rw [normalizePagination_page]; simp [h]
  · intro h; rw [normalizePagination_page]; split_ifs <;> omega
  · intro h; rw [normalizePagination_limit]
    simp only [DefaultLimit, MaxLimit]; split_ifs <;> omega
  · intro h; rw [normalizePagination_limit]; simp [h]
  · intro h; rw [normalizePagination_limit]
    simp only [DefaultLimit, MaxLimit]; split_ifs <;> omega

/-- C1 witness: the spec evaluated at the query `page=5, limit=200`. -/
theorem C1_witness :
    (1:Int) ≤ 5 ∧ (100:Int) < 200 ∧
    ((⟨5, 200⟩ : PaginationQuery).normalizePagination).1 = 5 ∧
    ((⟨5, 200⟩ : PaginationQuery).normalizePagination).2.1 = MaxLimit :=
  ⟨by decide, by decide,
   (C1_normalizePagination_spec ⟨5, 200⟩).1 (by decide),
   (C1_normalizePagination_spec ⟨5, 200⟩).2.2.2.2.1 (by decide)⟩

/-- C2: under `totalItems ≥ 0` and `limit ≥ 1`, `CalculateTotalPages` is
the integer ceiling `(totalItems + limit - 1) / limit`, is `0` at zero
items, and is the least `n` with `n * limit ≥ totalItems`. -/
theorem C2_calculateTotalPages_spec (t l : Int) (ht : 0 ≤ t) (hl : 1 ≤ l) :
    calculateTotalPages t l = (t + l - 1).tdiv l ∧
    calculateTotalPages 0 l = 0 ∧
    t ≤ calculateTotalPages t l * l ∧
    ∀ m : Int, t ≤ m * l → calculateTotalPages t l ≤ m := by
  have hl0 : (0:Int) < l := by omega
  have htd : (t + l - 1).tdiv l = (t + l - 1) / l :=
    Int.tdiv_eq_ediv (by omega) (by omega)
  have hdm := Int.ediv_add_emod (t + l - 1) l
  have hmn := Int.emod_nonneg (t + l - 1) (by omega : l ≠ 0)
  have hml := Int.emod_lt_of_pos (t + l - 1) hl0
  refine ⟨?_, by simp [calculateTotalPages], ?_, ?_⟩
  · unfold calculateTotalPages
    split_ifs with h0
    · subst h0
      rw [htd, Int.ediv_eq_zero_of_lt (by omega) (by omega)]
    · rfl
  · unfold calculateTotalPages
    split_ifs with h0
    · omega
    · rw [htd]; nlinarith [hdm, hmn, hml]
  · intro m hm
    unfold calculateTotalPages
    split_ifs with h0
    · nlinarith
    · rw [htd]
      have hlt : (t + l - 1) / l < m + 1 := by
        rw [Int.ediv_lt_iff_lt_mul hl0]; nlinarith
      omega

/-- C2 witness: 101 items at limit 10 give 11 pages, and 11 pages cover
the 101 items. -/
theorem C2_witness :
    (0:Int) ≤ 101 ∧ (1:Int) ≤ 10 ∧ calculateTotalPages 101 10 = 11 ∧
    (101:Int) ≤ calculateTotalPages 101 10 * 10 :=
  ⟨by decide, by decide, by decide,
   (C2_calculateTotalPages_spec 101 10 (by decide) (by decide)).2.2.1⟩

/-- C3: the five `AppError` constructors carry the fixed code-to-status
table, and `response.Error` writes exactly the `AppError`'s status for a
typed error, wraps any untyped error as a 500 `INTERNAL_SERVER_ERROR`,
and always writes `Success = false`. -/
theorem C3_errorTaxonomy_spec :
    (∀ r, (Errors.NotFound r).code = CODE_NOT_FOUND ∧
      (Errors.NotFound r).statusCode = 404) ∧
    (∀ r, (Errors.AlreadyExists r).code = CODE_ALREADY_EXISTS ∧
      (Errors.AlreadyExists r).statusCode = 409) ∧
    (∀ m, (Errors.Validation m).code = CODE_VALIDATION_ERROR ∧
      (Errors.Validation m).statusCode = 400) ∧
    (∀ m, (Errors.BadRequest m).code = CODE_BAD_REQUEST ∧
      (Errors.BadRequest m).statusCode = 400) ∧
    (∀ m, (Errors.Internal m).code = CODE_INTERNAL_ERROR ∧
      (Errors.Internal m).statusCode = 500) ∧
    (∀ e : AppError, Response.writeError (.appErr e) =
      (e.statusCode,
       { success := false, error := some ⟨e.code, e.message, e.details⟩ })) ∧
    (∀ g : GoError, (∀ e, g ≠ .appErr e) →
      Response.writeError g =
        (500, { success := false,
                error := some ⟨CODE_INTERNAL_ERROR, g.text, none⟩ })) ∧
    (∀ g : GoError, ((Response.writeError g).2).success = false) := by
  refine ⟨fun r => ⟨rfl, rfl⟩, fun r => ⟨rfl, rfl⟩, fun m => ⟨rfl, rfl⟩,
    fun m => ⟨rfl, rfl⟩, fun m => ⟨rfl, rfl⟩, fun e => rfl, ?_, ?_⟩
  · intro g hg
    cases g with
    | appErr e => exact absurd rfl (hg e)
    | sqlNoRows => rfl
    | raw msg => rfl
  · intro g; cases g <;> rfl

/-- C3 witness: `response.Error` on an error value that is not an
`AppError` writes status 500 with the internal-error code. -/
theorem C3_witness :
    Response.writeError (.raw "driver failure") =
      (500, { success := false,
              error := some ⟨CODE_INTERNAL_ERROR, "driver failure", none⟩ }) :=
  C3_errorTaxonomy_spec.2.2.2.2.2.2.1 (.raw "driver failure")
    (fun e h => by cases h)

/-! ## C10: Validator call sequences -/

/-- One call against a `Validator`: `AddError` or `Check`. -/
inductive VOp where
  | addError (field message : String)
  | check (ok : Bool) (field message : String)
deriving DecidableEq, Repr

/-- Effect of one call. -/
def applyVOp (v : Validator) : VOp → Validator
  | .addError f m => v.addError f m
  | .check ok f m => v.check ok f m

/-- Run a call sequence against a fresh validator. -/
def runVOps (ops : List VOp) : Validator :=
  ops.foldl applyVOp Validator.new

/-- Message a single call records for `field` when it is a failing call
naming that field. -/
def VOp.failsFor (field : String) : VOp → Option String
  | .addError f m => if f = field then some m else none
  | .check ok f m => if ok = false ∧ f = field then some m else none

/-- Message of the first failing call naming `field` in a sequence. -/
def firstFailing (field : String) : List VOp → Option String
  | [] => none
  | op :: rest =>
    match op.failsFor field with
    | some m => some m
    | none => firstFailing field rest

theorem lookup_addError (v : Validator) (f m field : String) :
    (v.addError f m).lookup field =
      (v.lookup field).or
        (if f = field ∧ v.lookup f = none then some m else none) := by
  unfold Validator.addError
  by_cases hf : f = field
  · subst hf
    cases h : v.lookup f with
    | none => simp [h, List.lookup_append, List.lookup]
    | some x => simp [h]
  · cases h : v.lookup f with
    | none =>
      have hbf : (field == f) = false := by
        simp only [beq_eq_false_iff_ne, ne_eq]
        exact fun hh => hf hh.symm
      simp [h, hf, List.lookup_append, List.lookup, hbf]
    | some x => simp [h, hf]

theorem lookup_foldl_applyVOp (ops : List VOp) (acc : Validator) (field : String) :
    (ops.foldl applyVOp acc).lookup field =
      (acc.lookup field).or (firstFailing field ops) := by
  induction ops generalizing acc with
  | nil => simp [firstFailing]
  | cons op rest ih =>
    rw [List.foldl_cons, ih]
    cases op with
    | addError f m =>
      simp only [applyVOp, firstFailing, VOp.failsFor]
      rw [lookup_addError]
      by_cases hf : f = field
      · subst hf
        cases h : acc.lookup f with
        | none => simp [h]
        | some x => simp [h]
      · simp [hf]
    | check ok f m =>
      cases ok with
      | true => simp [applyVOp, Validator.check, firstFailing, VOp.failsFor]
      | false =>
        simp only [applyVOp, Validator.check, Bool.false_eq_true, if_false,
          firstFailing, VOp.failsFor, true_and]
        rw [lookup_addError]
        by_cases hf : f = field
        · subst hf
          cases h : acc.lookup f with
          | none => simp [h]
          | some x => simp [h]
        · simp [hf]

theorem validator_empty_iff (v : Validator) :
    v = [] ↔ ∀ f, v.lookup f = none := by
  cases v with
  | nil => simp
  | cons p rest =>
    constructor
    · intro h; cases h
    · intro h
      have := h p.1
      simp [List.lookup] at this

/-- C10: the message a validator records for a field is the one of the
first failing call naming that field; `ToAppError` is `nil` exactly when
no field has a recorded error, and otherwise is a `VALIDATION_ERROR`
(status 400) whose details are exactly the recorded field-message pairs. -/
theorem C10_validator_spec (ops : List VOp) (field : String) :
    (runVOps ops).lookup field = firstFailing field ops ∧
    ((runVOps ops).toAppError = none ↔ ∀ f, firstFailing f ops = none) ∧
    ((∃ f, firstFailing f ops ≠ none) →
      ∃ e, (runVOps ops).toAppError = some e ∧
        e.code = CODE_VALIDATION_ERROR ∧ e.statusCode = 400 ∧
        e.details = some (runVOps ops)) := by
  have hrun : ∀ f, (runVOps ops).lookup f = firstFailing f ops := by
    intro f
    rw [runVOps, lookup_foldl_applyVOp]
    simp [Validator.new]
  refine ⟨hrun field, ?_, ?_⟩
  · constructor
    · intro h f
      by_cases he : runVOps ops = []
      · rw [← hrun f, he]; simp [List.lookup]
      · exfalso
        revert h
        simp [Validator.toAppError, Validator.valid, List.isEmpty_iff, he]
    · intro h
      have he : runVOps ops = [] := by
        rw [validator_empty_iff]
        intro f; rw [hrun f]; exact h f
      simp [Validator.toAppError, Validator.valid, he]
  · rintro ⟨f, hf⟩
    have hne : runVOps ops ≠ [] := by
      intro he
      apply hf
      rw [← hrun f, he]
      simp [List.lookup]
    refine ⟨(Errors.Validation "Validation failed").withDetails (runVOps ops), ?_, rfl, rfl, rfl⟩
    simp [Validator.toAppError, Validator.valid, List.isEmpty_iff, hne]

/-- C10 witness: in the sequence check-fail on `name`, add on `name`, add
on `role`, the recorded message for `name` is the first one. -/
theorem C10_witness :
    (runVOps [VOp.check false "name" "first", VOp.addError "name" "second",
      VOp.addError "role" "r"]).lookup "name" = some "first" ∧
    ∃ e, (runVOps [VOp.check false "name" "first", VOp.addError "name" "second",
      VOp.addError "role" "r"]).toAppError = some e ∧
        e.code = CODE_VALIDATION_ERROR ∧ e.statusCode = 400 ∧
        e.details = some (runVOps [VOp.check false "name" "first",
          VOp.addError "name" "second", VOp.addError "role" "r"]) :=
  ⟨by rw [(C10_validator_spec [VOp.check false "name" "first",
      VOp.addError "name" "second", VOp.addError "role" "r"] "name").1]; rfl,
   (C10_validator_spec [VOp.check false "name" "first",
      VOp.addError "name" "second", VOp.addError "role" "r"] "name").2.2
     ⟨"name", by decide⟩⟩

/-! ## C8: the two revisions of `GetCategoriesQuery.Normalize` -/

/-- C8 counterexample: at page `-1` the inline revision rejects with
`BadRequest` while the current revision substitutes the default page, so
the two functions are not extensionally equal. -/
theorem C8_counterexample :
    GetCategoriesQuery.normalizeInline ⟨⟨-1, 10⟩, "", none, ""⟩ ≠
      GetCategoriesQuery.normalize ⟨⟨-1, 10⟩, "", none, ""⟩ := by decide

/-- C8 amended: on every query whose page and limit are nonnegative the
two revisions return the same filter, or both fail with errors of the
same code and status (the malformed-date messages differ). -/
theorem C8_normalize_agree (q : GetCategoriesQuery)
    (hp : 0 ≤ q.pagination.page) (hl : 0 ≤ q.pagination.limit) :
    q.normalizeInline = q.normalize ∨
    (∃ e1 e2, q.normalizeInline = .error e1 ∧ q.normalize = .error e2 ∧
      e1.code = e2.code ∧ e1.statusCode = e2.statusCode) := by
  rcases hn : q.pagination.normalizePagination with ⟨pg, lm, off⟩
  have hpage : (if q.pagination.page = 0 then defaultCategoryPage
      else q.pagination.page) = pg := by
    have := normalizePagination_page q.pagination
    rw [hn] at this
    unfold defaultCategoryPage
    unfold DefaultPage at this
    simp only at this
    split_ifs <;> omega
  have hlimit : (if (if q.pagination.limit = 0 then defaultCategoryLimit
      else q.pagination.limit) > maxCategoryLimit then maxCategoryLimit
      else (if q.pagination.limit = 0 then defaultCategoryLimit
      else q.pagination.limit)) = lm := by
    have := normalizePagination_limit q.pagination
    rw [hn] at this
    unfold defaultCategoryLimit maxCategoryLimit
    unfold DefaultLimit MaxLimit at this
    simp only at this
    split_ifs <;> omega
  have hoff : (pg - 1) * lm = off := by
    have := normalizePagination_offset q.pagination
    rw [hn] at this
    simp only at this
    rw [this]
  have hnp : ¬ (if q.pagination.page = 0 then defaultCategoryPage
      else q.pagination.page) < 1 := by
    unfold defaultCategoryPage
    split_ifs <;> omega
  have hnl : ¬ (if q.pagination.limit = 0 then defaultCategoryLimit
      else q.pagination.limit) < 1 := by
    unfold defaultCategoryLimit
    split_ifs <;> omega
  have hpg : ¬ pg < 1 := by rw [← hpage]; exact hnp
  unfold GetCategoriesQuery.normalizeInline GetCategoriesQuery.normalize parseDate
  rw [hn]
  simp only [hnp, if_false, hnl, hpage, hlimit, hoff]
  by_cases hcd : goTrimSpace q.createdAt = ""
  · left
    simp [hcd]
    omega
  · simp only [hcd, if_false, ne_eq, not_false_iff, if_true]
    cases hpd : goTimeParseDate (goTrimSpace q.createdAt) with
    | none =>
      right
      exact ⟨Errors.BadRequest "createdAt must use YYYY-MM-DD format",
        Errors.BadRequest "Date must use YYYY-MM-DD format",
        by rw [if_neg hpg], rfl, rfl, rfl⟩
    | some d =>
      left
      rw [if_neg hpg]

/-- C8 witness for the amended statement, at a well-formed query. -/
theorem C8_witness :
    GetCategoriesQuery.normalizeInline ⟨⟨2, 5⟩, " a ", some true, " 2026-02-25 "⟩ =
      GetCategoriesQuery.normalize ⟨⟨2, 5⟩, " a ", some true, " 2026-02-25 "⟩ ∨
    (∃ e1 e2,
      GetCategoriesQuery.normalizeInline ⟨⟨2, 5⟩, " a ", some true, " 2026-02-25 "⟩ = .error e1 ∧
      GetCategoriesQuery.normalize ⟨⟨2, 5⟩, " a ", some true, " 2026-02-25 "⟩ = .error e2 ∧
      e1.code = e2.code ∧ e1.statusCode = e2.statusCode) :=
  C8_normalize_agree ⟨⟨2, 5⟩, " a ", some true, " 2026-02-25 "⟩ (by decide) (by decide)

/-! ## C9: repository GetAll returns a non-nil slice of at most Limit rows -/

/-- C9: whenever a repository `GetAll` (division, category, user) succeeds,
the returned slice is non-nil (the nil scan result is replaced by the empty
slice) and holds at most `filter.Limit` rows. -/
theorem C9_repoGetAll_slice (fc : CategoryListFilter) (dbc : CategoryDB)
    (fd : DivisionListFilter) (dbd : DivisionDB)
    (fu : UserListFilter) (dbu : UserDB) :
    (∀ res s1, categoryRepoGetAll fc dbc = (.ok res, s1) →
      ∃ items, res.1 = some items ∧ (items.length : Int) ≤ fc.limit) ∧
    (∀ res s1, divisionRepoGetAll fd dbd = (.ok res, s1) →
      ∃ items, res.1 = some items ∧ (items.length : Int) ≤ fd.limit) ∧
    (∀ res s1, userRepoGetAll fu dbu = (.ok res, s1) →
      ∃ items, res.1 = some items ∧ (items.length : Int) ≤ fu.limit) := by
  refine ⟨?_, ?_, ?_⟩
  · intro res s1 h
    unfold categoryRepoGetAll at h
    split_ifs at h with hneg
    · simp at h
    · push_neg at hneg
      simp only [Prod.mk.injEq, Except.ok.injEq] at h
      obtain ⟨h1, -⟩ := h
      subst h1
      set page := ((sortCategories (dbc.rows.filter (categoryMatches fc))).drop
        fc.offset.toNat).take fc.limit.toNat with hpage
      have hlen : (page.length : Int) ≤ fc.limit := by
        have h2 : page.length ≤ fc.limit.toNat := by
          rw [hpage]; exact (List.length_take_le _ _)
        calc (page.length : Int) ≤ (fc.limit.toNat : Int) := by exact_mod_cast h2
          _ = fc.limit := Int.toNat_of_nonneg hneg.1
      by_cases he : page.isEmpty
      · exact ⟨[], by simp [he], by simpa using hneg.1⟩
      · exact ⟨page, by simp [he], hlen⟩
  · intro res s1 h
    unfold divisionRepoGetAll at h
    split_ifs at h with hneg
    · simp at h
    · push_neg at hneg
      simp only [Prod.mk.injEq, Except.ok.injEq] at h
      obtain ⟨h1, -⟩ := h
      subst h1
      set page := ((sortDivisions (dbd.rows.filter (divisionMatches fd))).drop
        fd.offset.toNat).take fd.limit.toNat with hpage
      have hlen : (page.length : Int) ≤ fd.limit := by
        have h2 : page.length ≤ fd.limit.toNat := by
          rw [hpage]; exact (List.length_take_le _ _)
        calc (page.length : Int) ≤ (fd.limit.toNat : Int) := by exact_mod_cast h2
          _ = fd.limit := Int.toNat_of_nonneg hneg.1
      by_cases he : page.isEmpty
      · exact ⟨[], by simp [he], by simpa using hneg.1⟩
      · exact ⟨page, by simp [he], hlen⟩
  · intro res s1 h
    unfold userRepoGetAll at h
    split_ifs at h with hneg
    · simp at h
    · push_neg at hneg
      simp only [Prod.mk.injEq, Except.ok.injEq] at h
      obtain ⟨h1, -⟩ := h
      subst h1
      set page := ((sortUsers ((dbu.users.filter (userMatches fu)).filterMap
        (joinDivision dbu.divisions))).drop fu.offset.toNat).take fu.limit.toNat with hpage
      have hlen : (page.length : Int) ≤ fu.limit := by
        have h2 : page.length ≤ fu.limit.toNat := by
          rw [hpage]; exact (List.length_take_le _ _)
        calc (page.length : Int) ≤ (fu.limit.toNat : Int) := by exact_mod_cast h2
          _ = fu.limit := Int.toNat_of_nonneg hneg.1
      by_cases he : page.isEmpty
      · exact ⟨[], by simp [he], by simpa using hneg.1⟩
      · exact ⟨page, by simp [he], hlen⟩

/-- C9 witness: a one-row category table under the default filter. -/
theorem C9_witness :
    ∃ items,
      ((some [(⟨1, "Hardware", true, ⟨⟨2026, 2, 25⟩, 0⟩⟩ : Category)], (1:Int)) :
        Option (List Category) × Int).1 = some items ∧
      (items.length : Int) ≤ (⟨1, 10, 0, "", none, none⟩ : CategoryListFilter).limit :=
  (C9_repoGetAll_slice ⟨1, 10, 0, "", none, none⟩
      ⟨[⟨1, "Hardware", true, ⟨⟨2026, 2, 25⟩, 0⟩⟩], 2, ⟨⟨2026, 2, 25⟩, 0⟩⟩
      ⟨1, 10, 0, "", none, none⟩ ⟨[], 1, ⟨⟨2026, 2, 25⟩, 0⟩⟩
      ⟨1, 10, 0, "", "", 0, none⟩ ⟨[], [], 1, ⟨⟨2026, 2, 25⟩, 0⟩⟩).1
    (some [⟨1, "Hardware", true, ⟨⟨2026, 2, 25⟩, 0⟩⟩], 1)
    ⟨[⟨1, "Hardware", true, ⟨⟨2026, 2, 25⟩, 0⟩⟩], 2, ⟨⟨2026, 2, 25⟩, 0⟩⟩
    (by decide)

/-! ## C4: GetAll responses carry the normalized pagination -/

/-- C4: when a service `GetAll` (user and category alike) succeeds, the
response pagination carries the normalized page and limit of the query,
the repository count of matching rows as `TotalItems`, and
`CalculateTotalPages(TotalItems, Limit)` as `TotalPages`. -/
theorem C4_getAll_pagination (qu : GetUsersQuery) (dbu : UserDB) (baseURL : String)
    (qc : GetCategoriesQuery) (dbc : CategoryDB) :
    (∀ resp s1 f, qu.normalize = .ok f →
      userServiceGetAll userRepoImpl baseURL qu dbu = (.ok resp, s1) →
      resp.pagination.page = f.page ∧
      resp.pagination.limit = f.limit ∧
      f.page = (qu.pagination.normalizePagination).1 ∧
      f.limit = (qu.pagination.normalizePagination).2.1 ∧
      resp.pagination.totalItems = ((dbu.users.filter (userMatches f)).length : Int) ∧
      resp.pagination.totalPages =
        calculateTotalPages resp.pagination.totalItems resp.pagination.limit) ∧
    (∀ resp s1 f, qc.normalize = .ok f →
      categoryServiceGetAll categoryRepoImpl qc dbc = (.ok resp, s1) →
      resp.pagination.page = f.page ∧
      resp.pagination.limit = f.limit ∧
      f.page = (qc.pagination.normalizePagination).1 ∧
      f.limit = (qc.pagination.normalizePagination).2.1 ∧
      resp.pagination.totalItems = ((dbc.rows.filter (categoryMatches f)).length : Int) ∧
      resp.pagination.totalPages =
        calculateTotalPages resp.pagination.totalItems resp.pagination.limit) := by
  constructor
  · intro resp s1 f hf hresp
    rcases hn : qu.pagination.normalizePagination with ⟨pg, lm, off⟩
    have hrec : (⟨pg, lm, off, goTrimSpace qu.name, goTrimSpace qu.role,
        qu.divisionId, qu.isActive⟩ : UserListFilter) = f := by
      have hf2 := hf
      unfold GetUsersQuery.normalize at hf2
      rw [hn] at hf2
      simpa using hf2
    unfold userServiceGetAll at hresp
    rw [hf] at hresp
    simp only [userRepoImpl] at hresp
    unfold userRepoGetAll at hresp
    split_ifs at hresp with hneg
    · simp at hresp
    · simp only [Prod.mk.injEq, Except.ok.injEq] at hresp
      obtain ⟨h1, -⟩ := hresp
      subst h1
      refine ⟨rfl, rfl, ?_, ?_, rfl, rfl⟩
      · rw [← hrec]
      · rw [← hrec]
  · intro resp s1 f hf hresp
    rcases hn : qc.pagination.normalizePagination with ⟨pg, lm, off⟩
    have hrec : ∃ d, (⟨pg, lm, off, goTrimSpace qc.name, qc.isActive, d⟩ :
        CategoryListFilter) = f := by
      have hf2 := hf
      unfold GetCategoriesQuery.normalize at hf2
      rw [hn] at hf2
      cases hpd : parseDate qc.createdAt with
      | error e => rw [hpd] at hf2; simp at hf2
      | ok d =>
        rw [hpd] at hf2
        simp only [Except.ok.injEq] at hf2
        exact ⟨d, hf2⟩
    obtain ⟨d, hrec⟩ := hrec
    unfold categoryServiceGetAll at hresp
    rw [hf] at hresp
    simp only [categoryRepoImpl] at hresp
    unfold categoryRepoGetAll at hresp
    split_ifs at hresp with hneg
    · simp at hresp
    · simp only [Prod.mk.injEq, Except.ok.injEq] at hresp
      obtain ⟨h1, -⟩ := hresp
      subst h1
      refine ⟨rfl, rfl, ?_, ?_, rfl, rfl⟩
      · rw [← hrec]
      · rw [← hrec]

/-- C4 witness: a two-user one-division table queried at limit 1 reports
page 1, limit 1, two total items and two total pages. -/
theorem C4_witness :
    ({ items := [⟨2, "Bob", "b@x.co", none, none, "STAFF", ⟨1, "IT"⟩, true,
          ⟨⟨2026, 2, 26⟩, 0⟩⟩],
       pagination := ⟨1, 1, 2, 2⟩ } : ListResponse UserResponse).pagination.page =
      (⟨1, 1, 0, "", "", 0, none⟩ : UserListFilter).page ∧
    ({ items := [⟨2, "Bob", "b@x.co", none, none, "STAFF", ⟨1, "IT"⟩, true,
          ⟨⟨2026, 2, 26⟩, 0⟩⟩],
       pagination := ⟨1, 1, 2, 2⟩ } : ListResponse UserResponse).pagination.limit =
      (⟨1, 1, 0, "", "", 0, none⟩ : UserListFilter).limit ∧
    (⟨1, 1, 0, "", "", 0, none⟩ : UserListFilter).page =
      ((⟨1, 1⟩ : PaginationQuery).normalizePagination).1 ∧
    (⟨1, 1, 0, "", "", 0, none⟩ : UserListFilter).limit =
      ((⟨1, 1⟩ : PaginationQuery).normalizePagination).2.1 ∧
    ({ items := [⟨2, "Bob", "b@x.co", none, none, "STAFF", ⟨1, "IT"⟩, true,
          ⟨⟨2026, 2, 26⟩, 0⟩⟩],
       pagination := ⟨1, 1, 2, 2⟩ } : ListResponse UserResponse).pagination.totalItems =
      (((⟨[⟨1, "Alice", "a@x.co", "h", none, none, "ADMIN", 1, true, ⟨⟨2026, 2, 25⟩, 0⟩⟩,
          ⟨2, "Bob", "b@x.co", "h", none, none, "STAFF", 1, true, ⟨⟨2026, 2, 26⟩, 0⟩⟩],
         [⟨1, "IT", true, ⟨⟨2026, 2, 25⟩, 0⟩⟩], 3, ⟨⟨2026, 2, 25⟩, 0⟩⟩ : UserDB).users.filter
        (userMatches ⟨1, 1, 0, "", "", 0, none⟩)).length : Int) ∧
    ({ items := [⟨2, "Bob", "b@x.co", none, none, "STAFF", ⟨1, "IT"⟩, true,
          ⟨⟨2026, 2, 26⟩, 0⟩⟩],
       pagination := ⟨1, 1, 2, 2⟩ } : ListResponse UserResponse).pagination.totalPages =
      calculateTotalPages
        ({ items := [⟨2, "Bob", "b@x.co", none, none, "STAFF", ⟨1, "IT"⟩, true,
              ⟨⟨2026, 2, 26⟩, 0⟩⟩],
           pagination := ⟨1, 1, 2, 2⟩ } : ListResponse UserResponse).pagination.totalItems
        ({ items := [⟨2, "Bob", "b@x.co", none, none, "STAFF", ⟨1, "IT"⟩, true,
              ⟨⟨2026, 2, 26⟩, 0⟩⟩],
           pagination := ⟨1, 1, 2, 2⟩ } : ListResponse UserResponse).pagination.limit :=
  (C4_getAll_pagination ⟨⟨1, 1⟩, "", "", 0, none⟩
      ⟨[⟨1, "Alice", "a@x.co", "h", none, none, "ADMIN", 1, true, ⟨⟨2026, 2, 25⟩, 0⟩⟩,
        ⟨2, "Bob", "b@x.co", "h", none, none, "STAFF", 1, true, ⟨⟨2026, 2, 26⟩, 0⟩⟩],
       [⟨1, "IT", true, ⟨⟨2026, 2, 25⟩, 0⟩⟩], 3, ⟨⟨2026, 2, 25⟩, 0⟩⟩ ""
      ⟨⟨1, 10⟩, "", none, ""⟩ ⟨[], 1, ⟨⟨2026, 2, 25⟩, 0⟩⟩).1
    { items := [⟨2, "Bob", "b@x.co", none, none, "STAFF", ⟨1, "IT"⟩, true,
        ⟨⟨2026, 2, 26⟩, 0⟩⟩],
      pagination := ⟨1, 1, 2, 2⟩ }
    ⟨[⟨1, "Alice", "a@x.co", "h", none, none, "ADMIN", 1, true, ⟨⟨2026, 2, 25⟩, 0⟩⟩,
      ⟨2, "Bob", "b@x.co", "h", none, none, "STAFF", 1, true, ⟨⟨2026, 2, 26⟩, 0⟩⟩],
     [⟨1, "IT", true, ⟨⟨2026, 2, 25⟩, 0⟩⟩], 3, ⟨⟨2026, 2, 25⟩, 0⟩⟩
    ⟨1, 1, 0, "", "", 0, none⟩ (by decide) (by decide)

/-! ## C5: Create uniqueness checks -/

theorem divValidate_snd (i : Int) (db : UserDB) :
    (divisionValidateForAssignment i db).2 = db := by
  unfold divisionValidateForAssignment
  split_ifs <;> rfl

/-- C5 counterexample: the user service validates the division assignment
before the email uniqueness check, so a valid request whose email already
exists but whose division does not yields the division error, not
`AlreadyExists`.  (The division check is the spec-modelled
`ValidateForAssignment`.) -/
theorem C5_counterexample :
    (⟨"Bob", "a@x.co", "secret1", "STAFF", 5⟩ : CreateUserRequest).validate = none ∧
    (∃ u ∈ (⟨[⟨1, "Alice", "a@x.co", "h", none, none, "ADMIN", 1, true,
        ⟨⟨2026, 2, 25⟩, 0⟩⟩], [⟨1, "IT", true, ⟨⟨2026, 2, 25⟩, 0⟩⟩], 2,
        ⟨⟨2026, 2, 25⟩, 0⟩⟩ : UserDB).users,
      sqlLower u.email = sqlLower (goTrimSpace "a@x.co")) ∧
    (userServiceCreate userRepoImpl divisionValidateForAssignment bcryptHash ""
        ⟨"Bob", "a@x.co", "secret1", "STAFF", 5⟩
        ⟨[⟨1, "Alice", "a@x.co", "h", none, none, "ADMIN", 1, true,
          ⟨⟨2026, 2, 25⟩, 0⟩⟩], [⟨1, "IT", true, ⟨⟨2026, 2, 25⟩, 0⟩⟩], 2,
          ⟨⟨2026, 2, 25⟩, 0⟩⟩).1 =
      .error (.appErr (Errors.NotFound "Division")) := by
  refine ⟨by decide, ⟨⟨1, "Alice", "a@x.co", "h", none, none, "ADMIN", 1, true,
    ⟨⟨2026, 2, 25⟩, 0⟩⟩, by decide, by decide⟩, by decide⟩

/-- C5 amended: a valid `CreateCategoryRequest` whose trimmed name already
names a category makes the category `Create` return `AlreadyExists` with
the store unchanged; a valid `CreateUserRequest` whose trimmed email
already belongs to a user makes the user `Create` return `AlreadyExists`
with the store unchanged, provided the division assignment validation
succeeds (it runs before the email check). -/
theorem C5_create_uniqueness (reqc : CreateCategoryRequest) (dbc : CategoryDB)
    (requ : CreateUserRequest) (dbu : UserDB) (baseURL : String) :
    (reqc.validate = none →
     (∃ c ∈ dbc.rows, sqlLower c.name = sqlLower (goTrimSpace reqc.name)) →
      categoryServiceCreate categoryRepoImpl reqc dbc =
        (.error (.appErr (Errors.AlreadyExists "Category")), dbc)) ∧
    (requ.validate = none →
     (divisionValidateForAssignment requ.divisionId dbu).1 = .ok () →
     (∃ u ∈ dbu.users, sqlLower u.email = sqlLower (goTrimSpace requ.email)) →
      userServiceCreate userRepoImpl divisionValidateForAssignment bcryptHash
          baseURL requ dbu =
        (.error (.appErr (Errors.AlreadyExists "User with this email")), dbu)) := by
  constructor
  · intro hv hex
    obtain ⟨c, hc, hname⟩ := hex
    have hfind : ∃ x, List.find?
        (fun c2 => sqlLower c2.name == sqlLower (goTrimSpace reqc.name))
        dbc.rows = some x := by
      rw [← Option.isSome_iff_exists, List.find?_isSome]
      exact ⟨c, hc, by simp [hname]⟩
    obtain ⟨x, hx⟩ := hfind
    unfold categoryServiceCreate
    simp only [hv]
    simp only [categoryRepoImpl]
    unfold categoryRepoGetByName
    rw [hx]
  · intro hv hdiv hex
    obtain ⟨u, hu, hemail⟩ := hex
    have hpair : divisionValidateForAssignment requ.divisionId dbu =
        (.ok (), dbu) := by
      have hsnd := divValidate_snd requ.divisionId dbu
      rcases hdv : divisionValidateForAssignment requ.divisionId dbu with ⟨a, b⟩
      rw [hdv] at hdiv hsnd
      simp only at hdiv hsnd
      rw [hdiv, hsnd]
    have hfind : ∃ x, List.find?
        (fun u2 => sqlLower u2.email == sqlLower (goTrimSpace requ.email))
        dbu.users = some x := by
      rw [← Option.isSome_iff_exists, List.find?_isSome]
      exact ⟨u, hu, by simp [hemail]⟩
    obtain ⟨x, hx⟩ := hfind
    unfold userServiceCreate
    simp only [hv]
    rw [hpair]
    simp only [userRepoImpl]
    unfold userRepoGetByEmail
    rw [hx]

/-- C5 witness: a category whose name differs only by case and spacing,
and a user whose email differs only by case, both hit `AlreadyExists`
without changing the store. -/
theorem C5_witness :
    categoryServiceCreate categoryRepoImpl ⟨" hardware "⟩
        ⟨[⟨1, "Hardware", true, ⟨⟨2026, 2, 25⟩, 0⟩⟩], 2, ⟨⟨2026, 2, 25⟩, 0⟩⟩ =
      (.error (.appErr (Errors.AlreadyExists "Category")),
       ⟨[⟨1, "Hardware", true, ⟨⟨2026, 2, 25⟩, 0⟩⟩], 2, ⟨⟨2026, 2, 25⟩, 0⟩⟩) ∧
    userServiceCreate userRepoImpl divisionValidateForAssignment bcryptHash ""
        ⟨"Bob", "a@x.co", "secret1", "STAFF", 1⟩
        ⟨[⟨1, "Alice", "A@X.co", "h", none, none, "ADMIN", 1, true,
          ⟨⟨2026, 2, 25⟩, 0⟩⟩], [⟨1, "IT", true, ⟨⟨2026, 2, 25⟩, 0⟩⟩], 2,
          ⟨⟨2026, 2, 25⟩, 0⟩⟩ =
      (.error (.appErr (Errors.AlreadyExists "User with this email")),
       ⟨[⟨1, "Alice", "A@X.co", "h", none, none, "ADMIN", 1, true,
         ⟨⟨2026, 2, 25⟩, 0⟩⟩], [⟨1, "IT", true, ⟨⟨2026, 2, 25⟩, 0⟩⟩], 2,
         ⟨⟨2026, 2, 25⟩, 0⟩⟩) :=
  ⟨(C5_create_uniqueness ⟨" hardware "⟩
      ⟨[⟨1, "Hardware", true, ⟨⟨2026, 2, 25⟩, 0⟩⟩], 2, ⟨⟨2026, 2, 25⟩, 0⟩⟩
      ⟨"Bob", "a@x.co", "secret1", "STAFF", 1⟩
      ⟨[⟨1, "Alice", "A@X.co", "h", none, none, "ADMIN", 1, true,
        ⟨⟨2026, 2, 25⟩, 0⟩⟩], [⟨1, "IT", true, ⟨⟨2026, 2, 25⟩, 0⟩⟩], 2,
        ⟨⟨2026, 2, 25⟩, 0⟩⟩ "").1 (by decide)
      ⟨⟨1, "Hardware", true, ⟨⟨2026, 2, 25⟩, 0⟩⟩, by decide, by decide⟩,
   (C5_create_uniqueness ⟨" hardware "⟩
      ⟨[⟨1, "Hardware", true, ⟨⟨2026, 2, 25⟩, 0⟩⟩], 2, ⟨⟨2026, 2, 25⟩, 0⟩⟩
      ⟨"Bob", "a@x.co", "secret1", "STAFF", 1⟩
      ⟨[⟨1, "Alice", "A@X.co", "h", none, none, "ADMIN", 1, true,
        ⟨⟨2026, 2, 25⟩, 0⟩⟩], [⟨1, "IT", true, ⟨⟨2026, 2, 25⟩, 0⟩⟩], 2,
        ⟨⟨2026, 2, 25⟩, 0⟩⟩ "").2 (by decide) (by decide)
      ⟨⟨1, "Alice", "A@X.co", "h", none, none, "ADMIN", 1, true,
        ⟨⟨2026, 2, 25⟩, 0⟩⟩, by decide, by decide⟩⟩

/-! ## C6: services only surface taxonomy AppErrors -/

/-- Membership in the five-constructor error taxonomy (by code and HTTP
status). -/
def AppError.inTaxonomy (e : AppError) : Prop :=
  (e.code, e.statusCode) = (CODE_NOT_FOUND, 404) ∨
  (e.code, e.statusCode) = (CODE_ALREADY_EXISTS, 409) ∨
  (e.code, e.statusCode) = (CODE_VALIDATION_ERROR, 400) ∨
  (e.code, e.statusCode) = (CODE_INTERNAL_ERROR, 500) ∨
  (e.code, e.statusCode) = (CODE_BAD_REQUEST, 400)

/-- A Go error that is a typed `*AppError` from the taxonomy. -/
def GoError.isTaxonomyAppError (g : GoError) : Prop :=
  ∃ e, g = .appErr e ∧ e.inTaxonomy

theorem tax_notFound (r : String) : (Errors.NotFound r).inTaxonomy := Or.inl rfl

theorem tax_alreadyExists (r : String) : (Errors.AlreadyExists r).inTaxonomy :=
  Or.inr (Or.inl rfl)

theorem tax_validation (m : String) : (Errors.Validation m).inTaxonomy :=
  Or.inr (Or.inr (Or.inl rfl))

theorem tax_internal (m : String) : (Errors.Internal m).inTaxonomy :=
  Or.inr (Or.inr (Or.inr (Or.inl rfl)))

theorem tax_badRequest (m : String) : (Errors.BadRequest m).inTaxonomy :=
  Or.inr (Or.inr (Or.inr (Or.inr rfl)))

theorem tax_withDetails (e : AppError) (d : List (String × String))
    (h : e.inTaxonomy) : (e.withDetails d).inTaxonomy := h

theorem toAppError_tax (v : Validator) (e : AppError)
    (h : v.toAppError = some e) : e.inTaxonomy := by
  unfold Validator.toAppError at h
  split_ifs at h
  simp only [Option.some.injEq] at h
  subst h
  exact tax_withDetails _ _ (tax_validation _)

theorem createCategoryValidate_tax (r : CreateCategoryRequest) (e : AppError)
    (h : r.validate = some e) : e.inTaxonomy := by
  simp only [CreateCategoryRequest.validate] at h
  split_ifs at h <;> first | exact toAppError_tax _ _ h | cases h

theorem updateCategoryValidate_tax (r : UpdateCategoryRequest) (e : AppError)
    (h : r.validate = some e) : e.inTaxonomy := by
  simp only [UpdateCategoryRequest.validate] at h
  split_ifs at h <;> first | exact toAppError_tax _ _ h | cases h

theorem createUserValidate_tax (r : CreateUserRequest) (e : AppError)
    (h : r.validate = some e) : e.inTaxonomy := by
  simp only [CreateUserRequest.validate] at h
  split_ifs at h <;> first | exact toAppError_tax _ _ h | cases h

theorem updateUserValidate_tax (r : UpdateUserRequest) (e : AppError)
    (h : r.validate = some e) : e.inTaxonomy := by
  simp only [UpdateUserRequest.validate] at h
  split_ifs at h <;> first | exact toAppError_tax _ _ h | cases h

theorem parseDate_err_tax (s : String) (e : AppError)
    (h : parseDate s = .error e) : e.inTaxonomy := by
  unfold parseDate at h
  split_ifs at h
  cases hp : goTimeParseDate (goTrimSpace s) with
  | some d => simp [hp] at h
  | none =>
    simp only [hp, Except.error.injEq] at h
    subst h
    exact tax_badRequest _

theorem categoriesNormalize_err_tax (q : GetCategoriesQuery) (e : AppError)
    (h : q.normalize = .error e) : e.inTaxonomy := by
  unfold GetCategoriesQuery.normalize at h
  rcases hn : q.pagination.normalizePagination with ⟨pg, lm, off⟩
  rw [hn] at h
  cases hp : parseDate q.createdAt with
  | error e2 =>
    simp only [hp, Except.error.injEq] at h
    exact h ▸ parseDate_err_tax _ _ hp
  | ok d => simp [hp] at h

theorem usersNormalize_ok (q : GetUsersQuery) (e : AppError)
    (h : q.normalize = .error e) : False := by
  unfold GetUsersQuery.normalize at h
  rcases hn : q.pagination.normalizePagination with ⟨pg, lm, off⟩
  rw [hn] at h
  simp at h

theorem categoryServiceGetAll_err_tax {σ : Type} (repo : CategoryRepo σ)
    (req : GetCategoriesQuery) (s : σ) (g : GoError) (s1 : σ)
    (h : categoryServiceGetAll repo req s = (.error g, s1)) :
    g.isTaxonomyAppError := by
  unfold categoryServiceGetAll at h
  cases hn : req.normalize with
  | error e =>
    simp only [hn, Prod.mk.injEq, Except.error.injEq] at h
    exact ⟨e, h.1.symm, categoriesNormalize_err_tax req e hn⟩
  | ok filter =>
    simp only [hn] at h
    rcases hga : repo.getAll filter s with ⟨res, s2⟩
    simp only [hga] at h
    cases res with
    | error e2 =>
      simp only [Prod.mk.injEq, Except.error.injEq] at h
      exact ⟨_, h.1.symm, tax_internal _⟩
    | ok p => simp at h

theorem categoryServiceGetByID_err_tax {σ : Type} (repo : CategoryRepo σ)
    (id : Int) (s : σ) (g : GoError) (s1 : σ)
    (h : categoryServiceGetByID repo id s = (.error g, s1)) :
    g.isTaxonomyAppError := by
  unfold categoryServiceGetByID at h
  split_ifs at h with hid
  · simp only [Prod.mk.injEq, Except.error.injEq] at h
    exact ⟨_, h.1.symm, tax_badRequest _⟩
  · rcases hg : repo.getByID id s with ⟨res, s2⟩
    simp only [hg] at h
    cases res with
    | error e2 =>
      simp only [Prod.mk.injEq, Except.error.injEq] at h
      exact ⟨_, h.1.symm, tax_internal _⟩
    | ok o =>
      cases o with
      | none =>
        simp only [Prod.mk.injEq, Except.error.injEq] at h
        exact ⟨_, h.1.symm, tax_notFound _⟩
      | some c => simp at h

theorem categoryServiceCreate_err_tax {σ : Type} (repo : CategoryRepo σ)
    (req : CreateCategoryRequest) (s : σ) (g : GoError) (s1 : σ)
    (h : categoryServiceCreate repo req s = (.error g, s1)) :
    g.isTaxonomyAppError := by
  unfold categoryServiceCreate at h
  cases hv : req.validate with
  | some e =>
    simp only [hv, Prod.mk.injEq, Except.error.injEq] at h
    exact ⟨e, h.1.symm, createCategoryValidate_tax req e hv⟩
  | none =>
    simp only [hv] at h
    rcases h1 : repo.getByName (goTrimSpace req.name) s with ⟨res1, s2⟩
    simp only [h1] at h
    cases res1 with
    | error e2 =>
      simp only [Prod.mk.injEq, Except.error.injEq] at h
      exact ⟨_, h.1.symm, tax_internal _⟩
    | ok o =>
      cases o with
      | some c =>
        simp only [Prod.mk.injEq, Except.error.injEq] at h
        exact ⟨_, h.1.symm, tax_alreadyExists _⟩
      | none =>
        rcases h2 : repo.create (goTrimSpace req.name) s2 with ⟨res2, s3⟩
        simp only [h2] at h
        cases res2 with
        | error e3 =>
          dsimp only at h
          split_ifs at h with hc
          · simp only [Prod.mk.injEq, Except.error.injEq] at h
            exact ⟨_, h.1.symm, tax_alreadyExists _⟩
          · simp only [Prod.mk.injEq, Except.error.injEq] at h
            exact ⟨_, h.1.symm, tax_internal _⟩
        | ok c => simp at h

theorem categoryServiceUpdate_err_tax {σ : Type} (repo : CategoryRepo σ)
    (id : Int) (req : UpdateCategoryRequest) (s : σ) (g : GoError) (s1 : σ)
    (h : categoryServiceUpdate repo id req s = (.error g, s1)) :
    g.isTaxonomyAppError := by
  unfold categoryServiceUpdate at h
  split_ifs at h with hid
  · simp only [Prod.mk.injEq, Except.error.injEq] at h
    exact ⟨_, h.1.symm, tax_badRequest _⟩
  · cases hv : req.validate with
    | some e =>
      simp only [hv, Prod.mk.injEq, Except.error.injEq] at h
      exact ⟨e, h.1.symm, updateCategoryValidate_tax req e hv⟩
    | none =>
      simp only [hv] at h
      rcases h1 : repo.existsId id s with ⟨res1, s2⟩
      simp only [h1] at h
      cases res1 with
      | error e2 =>
        simp only [Prod.mk.injEq, Except.error.injEq] at h
        exact ⟨_, h.1.symm, tax_internal _⟩
      | ok b =>
        cases b with
        | false =>
          simp only [Prod.mk.injEq, Except.error.injEq] at h
          exact ⟨_, h.1.symm, tax_notFound _⟩
        | true =>
          rcases h2 : repo.getByName (goTrimSpace req.name) s2 with ⟨res2, s3⟩
          simp only [h2] at h
          cases res2 with
          | error e3 =>
            simp only [Prod.mk.injEq, Except.error.injEq] at h
            exact ⟨_, h.1.symm, tax_internal _⟩
          | ok o =>
            dsimp only at h
            split_ifs at h with hdup
            · simp only [Prod.mk.injEq, Except.error.injEq] at h
              exact ⟨_, h.1.symm, tax_alreadyExists _⟩
            · rcases h3 : repo.update id (goTrimSpace req.name) s3 with ⟨res3, s4⟩
              simp only [h3] at h
              cases res3 with
              | error e4 =>
                dsimp only at h
                split_ifs at h with hc
                · simp only [Prod.mk.injEq, Except.error.injEq] at h
                  exact ⟨_, h.1.symm, tax_alreadyExists _⟩
                · simp only [Prod.mk.injEq, Except.error.injEq] at h
                  exact ⟨_, h.1.symm, tax_internal _⟩
              | ok o2 =>
                cases o2 with
                | none =>
                  simp only [Prod.mk.injEq, Except.error.injEq] at h
                  exact ⟨_, h.1.symm, tax_notFound _⟩
                | some c => simp at h

theorem categoryServiceDelete_err_tax {σ : Type} (repo : CategoryRepo σ)
    (id : Int) (s : σ) (g : GoError) (s1 : σ)
    (h : categoryServiceDelete repo id s = (.error g, s1)) :
    g.isTaxonomyAppError := by
  unfold categoryServiceDelete at h
  split_ifs at h with hid
  · simp only [Prod.mk.injEq, Except.error.injEq] at h
    exact ⟨_, h.1.symm, tax_badRequest _⟩
  · rcases h1 : repo.existsId id s with ⟨res1, s2⟩
    simp only [h1] at h
    cases res1 with
    | error e2 =>
      simp only [Prod.mk.injEq, Except.error.injEq] at h
      exact ⟨_, h.1.symm, tax_internal _⟩
    | ok b =>
      cases b with
      | false =>
        simp only [Prod.mk.injEq, Except.error.injEq] at h
        exact ⟨_, h.1.symm, tax_notFound _⟩
      | true =>
        rcases h2 : repo.deleteId id s2 with ⟨res2, s3⟩
        simp only [h2] at h
        cases res2 with
        | error e3 =>
          dsimp only at h
          split_ifs at h with hnr
          · simp only [Prod.mk.injEq, Except.error.injEq] at h
            exact ⟨_, h.1.symm, tax_notFound _⟩
          · simp only [Prod.mk.injEq, Except.error.injEq] at h
            exact ⟨_, h.1.symm, tax_internal _⟩
        | ok u => simp at h

theorem userServiceGetAll_err_tax {σ : Type} (repo : UserRepo σ)
    (baseURL : String) (req : GetUsersQuery) (s : σ) (g : GoError) (s1 : σ)
    (h : userServiceGetAll repo baseURL req s = (.error g, s1)) :
    g.isTaxonomyAppError := by
  unfold userServiceGetAll at h
  cases hn : req.normalize with
  | error e => exact absurd hn (fun hh => usersNormalize_ok req e hh)
  | ok filter =>
    simp only [hn] at h
    rcases hga : repo.getAll filter s with ⟨res, s2⟩
    simp only [hga] at h
    cases res with
    | error e2 =>
      simp only [Prod.mk.injEq, Except.error.injEq] at h
      exact ⟨_, h.1.symm, tax_internal _⟩
    | ok p => simp at h

theorem userServiceGetByID_err_tax {σ : Type} (repo : UserRepo σ)
    (baseURL : String) (id : Int) (s : σ) (g : GoError) (s1 : σ)
    (h : userServiceGetByID repo baseURL id s = (.error g, s1)) :
    g.isTaxonomyAppError := by
  unfold userServiceGetByID at h
  split_ifs at h with hid
  · simp only [Prod.mk.injEq, Except.error.injEq] at h
    exact ⟨_, h.1.symm, tax_badRequest _⟩
  · rcases hg : repo.getByID id s with ⟨res, s2⟩
    simp only [hg] at h
    cases res with
    | error e2 =>
      simp only [Prod.mk.injEq, Except.error.injEq] at h
      exact ⟨_, h.1.symm, tax_internal _⟩
    | ok o =>
      cases o with
      | none =>
        simp only [Prod.mk.injEq, Except.error.injEq] at h
        exact ⟨_, h.1.symm, tax_notFound _⟩
      | some u => simp at h

theorem userServiceCreate_err_tax {σ : Type} (repo : UserRepo σ)
    (divValidate : Int → σ → Except AppError Unit × σ)
    (hdv : ∀ i st e st1, divValidate i st = (.error e, st1) → e.inTaxonomy)
    (hashPw : String → Except GoError String)
    (baseURL : String) (req : CreateUserRequest) (s : σ) (g : GoError) (s1 : σ)
    (h : userServiceCreate repo divValidate hashPw baseURL req s = (.error g, s1)) :
    g.isTaxonomyAppError := by
  unfold userServiceCreate at h
  cases hv : req.validate with
  | some e =>
    simp only [hv, Prod.mk.injEq, Except.error.injEq] at h
    exact ⟨e, h.1.symm, createUserValidate_tax req e hv⟩
  | none =>
    simp only [hv] at h
    rcases hd : divValidate req.divisionId s with ⟨resd, s2⟩
    simp only [hd] at h
    cases resd with
    | error e2 =>
      simp only [Prod.mk.injEq, Except.error.injEq] at h
      exact ⟨_, h.1.symm, hdv _ _ _ _ hd⟩
    | ok u =>
      rcases h1 : repo.getByEmail (goTrimSpace req.email) s2 with ⟨res1, s3⟩
      simp only [h1] at h
      cases res1 with
      | error e3 =>
        simp only [Prod.mk.injEq, Except.error.injEq] at h
        exact ⟨_, h.1.symm, tax_internal _⟩
      | ok o =>
        cases o with
        | some ex =>
          simp only [Prod.mk.injEq, Except.error.injEq] at h
          exact ⟨_, h.1.symm, tax_alreadyExists _⟩
        | none =>
          cases hh : hashPw req.password with
          | error e4 =>
            simp only [hh, Prod.mk.injEq, Except.error.injEq] at h
            exact ⟨_, h.1.symm, tax_internal _⟩
          | ok pw =>
            simp only [hh] at h
            rcases h2 : repo.create (goTrimSpace req.name) (goTrimSpace req.email)
              pw "" "" (goTrimSpace req.role) req.divisionId s3 with ⟨res2, s4⟩
            simp only [h2] at h
            cases res2 with
            | error e5 =>
              dsimp only at h
              split_ifs at h with hc
              · simp only [Prod.mk.injEq, Except.error.injEq] at h
                exact ⟨_, h.1.symm, tax_alreadyExists _⟩
              · simp only [Prod.mk.injEq, Except.error.injEq] at h
                exact ⟨_, h.1.symm, tax_internal _⟩
            | ok u2 => simp at h

theorem userServiceUpdate_err_tax {σ : Type} (repo : UserRepo σ)
    (divValidate : Int → σ → Except AppError Unit × σ)
    (hdv : ∀ i st e st1, divValidate i st = (.error e, st1) → e.inTaxonomy)
    (baseURL : String) (id : Int) (req : UpdateUserRequest) (s : σ)
    (g : GoError) (s1 : σ)
    (h : userServiceUpdate repo divValidate baseURL id req s = (.error g, s1)) :
    g.isTaxonomyAppError := by
  unfold userServiceUpdate at h
  split_ifs at h with hid
  · simp only [Prod.mk.injEq, Except.error.injEq] at h
    exact ⟨_, h.1.symm, tax_badRequest _⟩
  · cases hv : req.validate with
    | some e =>
      simp only [hv, Prod.mk.injEq, Except.error.injEq] at h
      exact ⟨e, h.1.symm, updateUserValidate_tax req e hv⟩
    | none =>
      simp only [hv] at h
      rcases h1 : repo.existsId id s with ⟨res1, s2⟩
      simp only [h1] at h
      cases res1 with
      | error e2 =>
        simp only [Prod.mk.injEq, Except.error.injEq] at h
        exact ⟨_, h.1.symm, tax_internal _⟩
      | ok b =>
        cases b with
        | false =>
          simp only [Prod.mk.injEq, Except.error.injEq] at h
          exact ⟨_, h.1.symm, tax_notFound _⟩
        | true =>
          rcases hd : divValidate req.divisionId s2 with ⟨resd, s3⟩
          simp only [hd] at h
          cases resd with
          | error e3 =>
            simp only [Prod.mk.injEq, Except.error.injEq] at h
            exact ⟨_, h.1.symm, hdv _ _ _ _ hd⟩
          | ok u =>
            rcases h2 : repo.getByID id s3 with ⟨res2, s4⟩
            simp only [h2] at h
            cases res2 with
            | error e4 =>
              simp only [Prod.mk.injEq, Except.error.injEq] at h
              exact ⟨_, h.1.symm, tax_internal _⟩
            | ok o =>
              cases o with
              | none =>
                simp only [Prod.mk.injEq, Except.error.injEq] at h
                exact ⟨_, h.1.symm, tax_notFound _⟩
              | some currentUser =>
                dsimp only at h
                rcases h3 : repo.update id (goTrimSpace req.name)
                  (match req.phone with
                   | none => ""
                   | some p => goTrimSpace p)
                  (goTrimSpace req.role) req.divisionId
                  (match req.isActive with
                   | none => currentUser.isActive
                   | some b => b) s4 with ⟨res3, s5⟩
                simp only [h3] at h
                cases res3 with
                | error e5 =>
                  simp only [Prod.mk.injEq, Except.error.injEq] at h
                  exact ⟨_, h.1.symm, tax_internal _⟩
                | ok o2 =>
                  cases o2 with
                  | none =>
                    simp only [Prod.mk.injEq, Except.error.injEq] at h
                    exact ⟨_, h.1.symm, tax_notFound _⟩
                  | some u2 => simp at h

theorem userServiceDelete_err_tax {σ : Type} (repo : UserRepo σ)
    (id : Int) (s : σ) (g : GoError) (s1 : σ)
    (h : userServiceDelete repo id s = (.error g, s1)) :
    g.isTaxonomyAppError := by
  unfold userServiceDelete at h
  split_ifs at h with hid
  · simp only [Prod.mk.injEq, Except.error.injEq] at h
    exact ⟨_, h.1.symm, tax_badRequest _⟩
  · rcases h1 : repo.getByID id s with ⟨res1, s2⟩
    simp only [h1] at h
    cases res1 with
    | error e2 =>
      simp only [Prod.mk.injEq, Except.error.injEq] at h
      exact ⟨_, h.1.symm, tax_internal _⟩
    | ok o =>
      cases o with
      | none =>
        simp only [Prod.mk.injEq, Except.error.injEq] at h
        exact ⟨_, h.1.symm, tax_notFound _⟩
      | some u =>
        rcases h2 : repo.deleteId id s2 with ⟨res2, s3⟩
        simp only [h2] at h
        cases res2 with
        | error e3 =>
          dsimp only at h
          split_ifs at h with hnr
          · simp only [Prod.mk.injEq, Except.error.injEq] at h
            exact ⟨_, h.1.symm, tax_notFound _⟩
          · simp only [Prod.mk.injEq, Except.error.injEq] at h
            exact ⟨_, h.1.symm, tax_internal _⟩
        | ok u2 => simp at h

/-- The spec-modelled division service only fails with taxonomy errors. -/
theorem divisionValidate_err_tax :
    ∀ i db e db1, divisionValidateForAssignment i db = (.error e, db1) →
      e.inTaxonomy := by
  intro i db e db1 h
  unfold divisionValidateForAssignment at h
  split_ifs at h
  · simp at h
  · simp only [Prod.mk.injEq, Except.error.injEq] at h
    exact h.1 ▸ tax_notFound _

/-- C6: for every repository behaviour and every input, an error returned
by a user or category service method (GetAll, GetByID, Create, Update,
Delete) is a typed `*AppError` from the taxonomy — raw repository errors
never escape the service layer.  (The division service called by the user
service is not in src/ and is spec-modelled by the hypothesis that, being
a service, it returns taxonomy errors.) -/
theorem C6_service_errors (σ1 σ2 : Type) (repoC : CategoryRepo σ1)
    (repoU : UserRepo σ2)
    (divValidate : Int → σ2 → Except AppError Unit × σ2)
    (hdv : ∀ i st e st1, divValidate i st = (.error e, st1) → e.inTaxonomy)
    (hashPw : String → Except GoError String) (baseURL : String) :
    (∀ req s g s1, categoryServiceGetAll repoC req s = (.error g, s1) →
      g.isTaxonomyAppError) ∧
    (∀ id s g s1, categoryServiceGetByID repoC id s = (.error g, s1) →
      g.isTaxonomyAppError) ∧
    (∀ req s g s1, categoryServiceCreate repoC req s = (.error g, s1) →
      g.isTaxonomyAppError) ∧
    (∀ id req s g s1, categoryServiceUpdate repoC id req s = (.error g, s1) →
      g.isTaxonomyAppError) ∧
    (∀ id s g s1, categoryServiceDelete repoC id s = (.error g, s1) →
      g.isTaxonomyAppError) ∧
    (∀ req s g s1, userServiceGetAll repoU baseURL req s = (.error g, s1) →
      g.isTaxonomyAppError) ∧
    (∀ id s g s1, userServiceGetByID repoU baseURL id s = (.error g, s1) →
      g.isTaxonomyAppError) ∧
    (∀ req s g s1, userServiceCreate repoU divValidate hashPw baseURL req s =
      (.error g, s1) → g.isTaxonomyAppError) ∧
    (∀ id req s g s1, userServiceUpdate repoU divValidate baseURL id req s =
      (.error g, s1) → g.isTaxonomyAppError) ∧
    (∀ id s g s1, userServiceDelete repoU id s = (.error g, s1) →
      g.isTaxonomyAppError) :=
  ⟨fun req s g s1 h => categoryServiceGetAll_err_tax repoC req s g s1 h,
   fun id s g s1 h => categoryServiceGetByID_err_tax repoC id s g s1 h,
   fun req s g s1 h => categoryServiceCreate_err_tax repoC req s g s1 h,
   fun id req s g s1 h => categoryServiceUpdate_err_tax repoC id req s g s1 h,
   fun id s g s1 h => categoryServiceDelete_err_tax repoC id s g s1 h,
   fun req s g s1 h => userServiceGetAll_err_tax repoU baseURL req s g s1 h,
   fun id s g s1 h => userServiceGetByID_err_tax repoU baseURL id s g s1 h,
   fun req s g s1 h =>
     userServiceCreate_err_tax repoU divValidate hdv hashPw baseURL req s g s1 h,
   fun id req s g s1 h =>
     userServiceUpdate_err_tax repoU divValidate hdv baseURL id req s g s1 h,
   fun id s g s1 h => userServiceDelete_err_tax repoU id s g s1 h⟩

/-- C6 witness: the SQL-backed repositories and the spec-modelled division
service, with a raw-error-producing repository outcome: `Delete` on a
user id whose row vanished surfaces `NotFound`, a taxonomy error. -/
theorem C6_witness :
    GoError.isTaxonomyAppError
      (.appErr (Errors.BadRequest "Invalid category ID")) :=
  (C6_service_errors CategoryDB UserDB categoryRepoImpl userRepoImpl
      divisionValidateForAssignment divisionValidate_err_tax bcryptHash "").2.1
    0 ⟨[], 1, ⟨⟨2026, 2, 25⟩, 0⟩⟩
    (.appErr (Errors.BadRequest "Invalid category ID"))
    ⟨[], 1, ⟨⟨2026, 2, 25⟩, 0⟩⟩ (by decide)

/-! ## C7: ID-based operations -/

/-- C7 counterexample: `Update` validates the request body before checking
existence, so at an id the repository does not know (here: the empty
table) an invalid body yields `VALIDATION_ERROR`, not `NOT_FOUND`. -/
theorem C7_counterexample :
    (0:Int) < 1 ∧
    (categoryRepoExists 1 ⟨[], 1, ⟨⟨2026, 2, 25⟩, 0⟩⟩).1 = .ok false ∧
    (categoryServiceUpdate categoryRepoImpl 1 ⟨"x", none⟩
        ⟨[], 1, ⟨⟨2026, 2, 25⟩, 0⟩⟩).1 ≠
      .error (.appErr (Errors.NotFound "Category")) ∧
    (categoryServiceUpdate categoryRepoImpl 1 ⟨"x", none⟩
        ⟨[], 1, ⟨⟨2026, 2, 25⟩, 0⟩⟩).1 =
      .error (.appErr ((Errors.Validation "Validation failed").withDetails
        [("name", "name must be at least 2 characters long")])) := by
  refine ⟨by decide, by decide, by decide, by decide⟩

/-- C7 amended: for `id ≤ 0`, GetByID, Update and Delete of both features
return `BadRequest` with the store untouched, for every repository
behaviour; for `id > 0` on which the repository reports no row, they
return `NotFound` — for `Update` provided the request body passes
validation (validation runs first). -/
theorem C7_id_operations {σ1 σ2 : Type} (repoC : CategoryRepo σ1)
    (repoU : UserRepo σ2)
    (divValidate : Int → σ2 → Except AppError Unit × σ2) (baseURL : String)
    (id : Int) (reqc : UpdateCategoryRequest) (requ : UpdateUserRequest)
    (s : σ1) (t : σ2) :
    (id ≤ 0 → categoryServiceGetByID repoC id s =
      (.error (.appErr (Errors.BadRequest "Invalid category ID")), s)) ∧
    (id ≤ 0 → categoryServiceUpdate repoC id reqc s =
      (.error (.appErr (Errors.BadRequest "Invalid category ID")), s)) ∧
    (id ≤ 0 → categoryServiceDelete repoC id s =
      (.error (.appErr (Errors.BadRequest "Invalid category ID")), s)) ∧
    (id ≤ 0 → userServiceGetByID repoU baseURL id t =
      (.error (.appErr (Errors.BadRequest "Invalid user ID")), t)) ∧
    (id ≤ 0 → userServiceUpdate repoU divValidate baseURL id requ t =
      (.error (.appErr (Errors.BadRequest "Invalid user ID")), t)) ∧
    (id ≤ 0 → userServiceDelete repoU id t =
      (.error (.appErr (Errors.BadRequest "Invalid user ID")), t)) ∧
    (0 < id → ∀ s2, repoC.getByID id s = (.ok none, s2) →
      categoryServiceGetByID repoC id s =
        (.error (.appErr (Errors.NotFound "Category")), s2)) ∧
    (0 < id → reqc.validate = none →
      ∀ s2, repoC.existsId id s = (.ok false, s2) →
      categoryServiceUpdate repoC id reqc s =
        (.error (.appErr (Errors.NotFound "Category")), s2)) ∧
    (0 < id → ∀ s2, repoC.existsId id s = (.ok false, s2) →
      categoryServiceDelete repoC id s =
        (.error (.appErr (Errors.NotFound "Category")), s2)) ∧
    (0 < id → ∀ t2, repoU.getByID id t = (.ok none, t2) →
      userServiceGetByID repoU baseURL id t =
        (.error (.appErr (Errors.NotFound "User")), t2)) ∧
    (0 < id → requ.validate = none →
      ∀ t2, repoU.existsId id t = (.ok false, t2) →
      userServiceUpdate repoU divValidate baseURL id requ t =
        (.error (.appErr (Errors.NotFound "User")), t2)) ∧
    (0 < id → ∀ t2, repoU.getByID id t = (.ok none, t2) →
      userServiceDelete repoU id t =
        (.error (.appErr (Errors.NotFound "User")), t2)) := by
  refine ⟨?_, ?_, ?_, ?_, ?_, ?_, ?_, ?_, ?_, ?_, ?_, ?_⟩
  · intro hid
    unfold categoryServiceGetByID
    rw [if_pos hid]
  · intro hid
    unfold categoryServiceUpdate
    rw [if_pos hid]
  · intro hid
    unfold categoryServiceDelete
    rw [if_pos hid]
  · intro hid
    unfold userServiceGetByID
    rw [if_pos hid]
  · intro hid
    unfold userServiceUpdate
    rw [if_pos hid]
  · intro hid
    unfold userServiceDelete
    rw [if_pos hid]
  · intro hid s2 hrepo
    unfold categoryServiceGetByID
    rw [if_neg (by omega : ¬ id ≤ 0)]
    simp only [hrepo]
  · intro hid hv s2 hrepo
    unfold categoryServiceUpdate
    rw [if_neg (by omega : ¬ id ≤ 0)]
    simp only [hv, hrepo]
  · intro hid s2 hrepo
    unfold categoryServiceDelete
    rw [if_neg (by omega : ¬ id ≤ 0)]
    simp only [hrepo]
  · intro hid t2 hrepo
    unfold userServiceGetByID
    rw [if_neg (by omega : ¬ id ≤ 0)]
    simp only [hrepo]
  · intro hid hv t2 hrepo
    unfold userServiceUpdate
    rw [if_neg (by omega : ¬ id ≤ 0)]
    simp only [hv, hrepo]
  · intro hid t2 hrepo
    unfold userServiceDelete
    rw [if_neg (by omega : ¬ id ≤ 0)]
    simp only [hrepo]

/-- C7 witness: id 0 on the category service and a missing user id 1 on
the SQL-backed repositories. -/
theorem C7_witness :
    categoryServiceGetByID categoryRepoImpl 0 ⟨[], 1, ⟨⟨2026, 2, 25⟩, 0⟩⟩ =
      (.error (.appErr (Errors.BadRequest "Invalid category ID")),
       ⟨[], 1, ⟨⟨2026, 2, 25⟩, 0⟩⟩) ∧
    userServiceDelete userRepoImpl 1 ⟨[], [], 1, ⟨⟨2026, 2, 25⟩, 0⟩⟩ =
      (.error (.appErr (Errors.NotFound "User")),
       ⟨[], [], 1, ⟨⟨2026, 2, 25⟩, 0⟩⟩) :=
  ⟨(C7_id_operations categoryRepoImpl userRepoImpl divisionValidateForAssignment
      "" 0 ⟨"ab", none⟩ ⟨"ab", none, "IT", 1, none⟩
      ⟨[], 1, ⟨⟨2026, 2, 25⟩, 0⟩⟩ ⟨[], [], 1, ⟨⟨2026, 2, 25⟩, 0⟩⟩).1 (by decide),
   (C7_id_operations categoryRepoImpl userRepoImpl divisionValidateForAssignment
      "" 1 ⟨"ab", none⟩ ⟨"ab", none, "IT", 1, none⟩
      ⟨[], 1, ⟨⟨2026, 2, 25⟩, 0⟩⟩
      ⟨[], [], 1, ⟨⟨2026, 2, 25⟩, 0⟩⟩).2.2.2.2.2.2.2.2.2.2.2
     (by decide) ⟨[], [], 1, ⟨⟨2026, 2, 25⟩, 0⟩⟩ (by decide)⟩

end Helpdesk
